import Mathlib

/-!
# Verification of the insider-activity convergence engine

A shallow embedding, in Lean 4, of the logic-bearing core of the
`jason-ai-toolkit` repository: the weight calculator and convergence
detector (`ConvergenceAnalyzer`), the backtesting simulator and benchmark
comparator (`Backtester`), and the deduplicating persistence layer
(`Database.saveInsiderTransaction`).

Modelling conventions:
* JavaScript numbers are modelled as `ℚ` (idealised exact arithmetic).
  Where the source can divide by zero, the computation is embedded over
  `JsNum`, which mirrors IEEE-754 special values (`NaN`, `±Infinity`)
  for the operations actually performed.
* `Date` values are modelled as integers (days); the simulator advances
  one day at a time and compares dates at day granularity, which matches
  the source's use of `toDateString` equality and millisecond arithmetic
  scaled by `1000*60*60*24`.
* JavaScript `Map` objects (the open-position table) are modelled as
  association lists in insertion order; `Map.set` replaces in place.
* `Array.prototype.sort` (stable since ES2019) is modelled by
  `List.insertionSort`, which is stable.
* The price-fetching collaborator is modelled as a function from ticker
  to its full date-ascending daily bar list; a range request filters it.
-/

/-- JavaScript `String.prototype.toUpperCase` restricted to the ASCII
characters appearing in the engine's lookup tables. -/
def jsUpper (s : String) : String := ⟨s.data.map Char.toUpper⟩

/-- JavaScript `String.prototype.toLowerCase` (ASCII). -/
def jsLower (s : String) : String := ⟨s.data.map Char.toLower⟩

/-- Does `needle` occur at the head of `hay`? (helper for substring search). -/
def prefixAt : List Char → List Char → Bool
  | _, [] => true
  | [], _ :: _ => false
  | a :: as, b :: bs => a = b && prefixAt as bs

/-- Does `needle` occur anywhere inside `hay`? -/
def subIn : List Char → List Char → Bool
  | [], needle => needle.isEmpty
  | h :: t, needle => prefixAt (h :: t) needle || subIn t needle

/-- JavaScript `hay.includes(needle)` for strings. -/
def strIncludes (hay needle : String) : Bool := subIn hay.data needle.data

/-- JavaScript `arr.slice(0, e)`: a negative end index counts from the
end of the array. -/
def jsSliceTo {α : Type} (l : List α) (e : ℤ) : List α :=
  if 0 ≤ e then l.take e.toNat else l.take ((l.length : ℤ) + e).toNat

/-- A JavaScript number that may be one of the IEEE-754 special values
produced by the engine's unguarded divisions. -/
inductive JsNum : Type where
  | num (q : ℚ)
  | posInf
  | negInf
  | nan
deriving DecidableEq, Repr

/-- JavaScript division of two finite numbers: division by zero yields
`±Infinity` (or `NaN` for `0/0`), never an exception. -/
def jsDivQ (x y : ℚ) : JsNum :=
  if y ≠ 0 then .num (x / y)
  else if 0 < x then .posInf
  else if x < 0 then .negInf
  else .nan

/-- Multiply a possibly-special number by a finite constant on the left
(IEEE-754 sign rules; `0 * ±Infinity = NaN`). -/
def jsMulL (c : ℚ) : JsNum → JsNum
  | .num q => .num (c * q)
  | .posInf => if 0 < c then .posInf else if c < 0 then .negInf else .nan
  | .negInf => if 0 < c then .negInf else if c < 0 then .posInf else .nan
  | .nan => .nan

/-- Multiply a possibly-special number by a finite constant on the right. -/
def jsMulR (a : JsNum) (c : ℚ) : JsNum := jsMulL c a

/-- JavaScript subtraction extended to special values. -/
def jsSub : JsNum → JsNum → JsNum
  | .nan, _ => .nan
  | _, .nan => .nan
  | .num a, .num b => .num (a - b)
  | .num _, .posInf => .negInf
  | .num _, .negInf => .posInf
  | .posInf, .posInf => .nan
  | .posInf, _ => .posInf
  | .negInf, .negInf => .nan
  | .negInf, _ => .negInf

/-- JavaScript `a > b` extended to special values (`NaN` compares false). -/
def jsGtB : JsNum → JsNum → Bool
  | .nan, _ => false
  | _, .nan => false
  | .num a, .num b => a > b
  | .posInf, .posInf => false
  | .posInf, _ => true
  | .negInf, _ => false
  | .num _, .posInf => false
  | .num _, .negInf => true

/-- JavaScript `1 + x` extended to special values. -/
def jsAddOne : JsNum → JsNum
  | .num q => .num (1 + q)
  | .posInf => .posInf
  | .negInf => .negInf
  | .nan => .nan

/-- JavaScript `x / 100` extended to special values. -/
def jsDivHundred : JsNum → JsNum
  | .num q => .num (q / 100)
  | .posInf => .posInf
  | .negInf => .negInf
  | .nan => .nan

/-- The percentage computation `(x / base) * 100` as the source performs
it, with JavaScript zero-division semantics. -/
def jsPercent (x base : ℚ) : JsNum := jsMulR (jsDivQ x base) 100

/-! ## Data model: raw events (`src/.../types/transactions.ts`) -/

/-- `InsiderTransaction` (fields consumed by the engine). -/
structure InsiderTransaction : Type where
  id : Option String := none
  ticker : String
  companyName : Option String := none
  insiderName : String
  insiderTitle : String
  transactionType : String
  shares : ℚ
  pricePerShare : ℚ
  transactionDate : ℤ
  filingDate : ℤ := 0
deriving DecidableEq, Repr

/-- A legislator's disclosed amount range. -/
structure AmountRange : Type where
  lo : ℚ
  hi : ℚ
deriving DecidableEq, Repr

/-- `CongressTransaction` (fields consumed by the engine). -/
structure CongressTransaction : Type where
  id : Option String := none
  ticker : String
  memberName : String
  committees : List String := []
  transactionType : String
  transactionDate : ℤ
  disclosureDate : ℤ := 0
  amountRange : AmountRange
deriving DecidableEq, Repr

/-- `InstitutionalHolding` (fields consumed by the engine). -/
structure InstitutionalHolding : Type where
  id : Option String := none
  ticker : String
  companyName : Option String := none
  institutionName : String
  institutionCIK : String := ""
  shares : ℚ := 0
  value : ℚ
  filingDate : ℤ
  reportDate : ℤ := 0
  changeType : Option String := none
  ownershipPercent : Option ℚ := none
deriving DecidableEq, Repr

/-! ## Weight Calculator (`ConvergenceAnalyzer.calculate*Weight`) -/

/-- The `INSIDER_WEIGHTS` title table from `types/analysis.ts`. -/
def INSIDER_WEIGHTS : List (String × ℚ) :=
  [("CEO", 10), ("CFO", 9), ("COO", 8), ("President", 8),
   ("Chief Executive Officer", 10), ("Chief Financial Officer", 9),
   ("Chief Operating Officer", 8), ("Director", 5), ("Officer", 6),
   ("10% Owner", 7), ("VP", 4), ("Vice President", 4), ("Secretary", 3),
   ("Treasurer", 4), ("General", 3)]

/-- The `CONGRESS_COMMITTEE_WEIGHTS` table from `types/analysis.ts`. -/
def CONGRESS_COMMITTEE_WEIGHTS : List (String × ℚ) :=
  [("Finance", 10), ("Banking", 10), ("Ways and Means", 9),
   ("Financial Services", 9), ("Commerce", 8), ("Energy", 8),
   ("Armed Services", 7), ("Intelligence", 8), ("Judiciary", 6),
   ("Appropriations", 7)]

/-- The `TRANSACTION_SIZE_MULTIPLIERS` table from `types/analysis.ts`. -/
structure SizeMultipliers : Type where
  small : ℚ
  medium : ℚ
  large : ℚ
  xlarge : ℚ
  mega : ℚ

def TRANSACTION_SIZE_MULTIPLIERS : SizeMultipliers :=
  { small := 1, medium := 1.5, large := 2, xlarge := 3, mega := 5 }

/-- Base weight from the title lookup: case-insensitive substring match
against every table entry, keeping the maximum, defaulting to 3. -/
def insiderBaseWeight (insiderTitle : String) : ℚ :=
  let titleUpper := jsUpper insiderTitle
  INSIDER_WEIGHTS.foldl
    (fun acc tw => if strIncludes titleUpper (jsUpper tw.1) then max acc tw.2 else acc) 3

/-- Transaction-kind multiplier: `BUY` 1.5, `SELL` 0.3, otherwise 1. -/
def insiderTxMultiplier (transactionType : String) : ℚ :=
  if transactionType = "BUY" then 1.5
  else if transactionType = "SELL" then 0.3 else 1

/-- Size multiplier keyed on total dollar value. -/
def insiderSizeMultiplier (totalValue : ℚ) : ℚ :=
  if 5000000 ≤ totalValue then TRANSACTION_SIZE_MULTIPLIERS.mega
  else if 1000000 ≤ totalValue then TRANSACTION_SIZE_MULTIPLIERS.xlarge
  else if 250000 ≤ totalValue then TRANSACTION_SIZE_MULTIPLIERS.large
  else if 50000 ≤ totalValue then TRANSACTION_SIZE_MULTIPLIERS.medium
  else TRANSACTION_SIZE_MULTIPLIERS.small

/-- Input record of `calculateInsiderWeight`. -/
structure InsiderWeightInput : Type where
  insiderTitle : String
  transactionType : String
  shares : ℚ
  pricePerShare : ℚ

/-- `ConvergenceAnalyzer.calculateInsiderWeight`. -/
def calculateInsiderWeight (input : InsiderWeightInput) : ℚ :=
  insiderBaseWeight input.insiderTitle
    * insiderTxMultiplier input.transactionType
    * insiderSizeMultiplier (input.shares * input.pricePerShare)

/-- Committee bonus: maximum matching committee weight, starting at 0. -/
def committeeBonus (committees : List String) : ℚ :=
  committees.foldl
    (fun acc c =>
      CONGRESS_COMMITTEE_WEIGHTS.foldl
        (fun acc2 nw => if strIncludes (jsLower c) (jsLower nw.1) then max acc2 nw.2 else acc2)
        acc)
    0

/-- Amount multiplier keyed on the midpoint of the disclosed range. -/
def congressAmountMultiplier (avgAmount : ℚ) : ℚ :=
  if 1000000 ≤ avgAmount then 3
  else if 250000 ≤ avgAmount then 2
  else if 50000 ≤ avgAmount then 1.5 else 1

/-- Input record of `calculateCongressWeight`. -/
structure CongressWeightInput : Type where
  memberName : String
  committees : List String := []
  transactionType : String
  amountRange : AmountRange

/-- `ConvergenceAnalyzer.calculateCongressWeight`. -/
def calculateCongressWeight (input : CongressWeightInput) : ℚ :=
  let baseWeight : ℚ := 5
  let txMultiplier : ℚ := if input.transactionType = "PURCHASE" then 1.5 else 0.5
  let avgAmount := (input.amountRange.lo + input.amountRange.hi) / 2
  (baseWeight + committeeBonus input.committees) * txMultiplier
    * congressAmountMultiplier avgAmount

/-- `ConvergenceAnalyzer.calculateInstitutionalWeight`. -/
def calculateInstitutionalWeight (holding : InstitutionalHolding) : ℚ :=
  let w0 : ℚ := 5
  let w1 :=
    if holding.changeType = some "NEW" then w0 * 2
    else if holding.changeType = some "INCREASE" then w0 * 1.5
    else if holding.changeType = some "DECREASE" ∨ holding.changeType = some "SOLD_OUT" then
      w0 * 0.3
    else w0
  let valueMillions := holding.value / 1000000
  let w2 :=
    if 1000 ≤ valueMillions then w1 * 3
    else if 100 ≤ valueMillions then w1 * 2
    else if 10 ≤ valueMillions then w1 * 1.5
    else w1
  match holding.ownershipPercent with
  | some p => if p ≠ 0 ∧ 10 ≤ p then w2 * 1.5 else w2
  | none => w2

/-! ## Convergence Detector (`ConvergenceAnalyzer.detectConvergence`) -/

/-- `SignalDetails` (category activity counts). -/
structure SignalDetails : Type where
  insiderBuys : ℕ
  congressBuys : ℕ
  institutionalIncreases : ℕ
deriving DecidableEq, Repr

/-- `RecentBuyer`; the source's `type` field is `rbType` here. -/
structure RecentBuyer : Type where
  name : String
  rbType : String
  date : ℤ
  amount : Option ℚ := none
  amountRange : Option AmountRange := none
deriving DecidableEq, Repr

/-- `ConvergenceSignal`. -/
structure ConvergenceSignal : Type where
  ticker : String
  companyName : Option String := none
  date : ℤ
  convergenceScore : ℚ
  insiderScore : ℚ := 0
  congressScore : ℚ := 0
  institutionalScore : ℚ := 0
  convergenceBonus : ℚ := 0
  signals : SignalDetails := ⟨0, 0, 0⟩
  recentBuyers : List RecentBuyer := []
deriving DecidableEq, Repr

/-- `ConvergenceAnalyzer.getInsiderType`: derive an actor type from the
free-text title by substring matching. -/
def getInsiderType (title : String) : String :=
  let u := jsUpper title
  if strIncludes u "CEO" || strIncludes u "CHIEF EXECUTIVE" then "CEO"
  else if strIncludes u "CFO" || strIncludes u "CHIEF FINANCIAL" then "CFO"
  else if strIncludes u "10%" || strIncludes u "TEN PERCENT" then "10%+ Owner"
  else if strIncludes u "DIRECTOR" then "Director"
  else "Officer"

/-- JavaScript `a || b` on possibly-absent strings (`""` is falsy). -/
def jsOrStr (a b : Option String) : Option String :=
  match a with
  | some s => if s = "" then b else some s
  | none => b

/-- Keep the first occurrence of every ticker, in arrival order
(the insertion order of the `tickerActivity` record's keys). -/
def dedupFirst (l : List String) : List String :=
  l.foldl (fun acc t => if acc.contains t then acc else acc ++ [t]) []

/-- The per-ticker body of `detectConvergence`'s main loop: category
filtering, weight sums, normalization, convergence bonus, overall score
and the recent-buyers list. `now` models `new Date()`. -/
def computeTickerSignal (now : ℤ) (ticker : String)
    (insider : List InsiderTransaction) (congress : List CongressTransaction)
    (institutional : List InstitutionalHolding) : ConvergenceSignal :=
  let insiderBuys := insider.filter (fun t => t.transactionType == "BUY")
  let congressBuys := congress.filter (fun t => t.transactionType == "PURCHASE")
  let institutionalIncreases :=
    institutional.filter (fun h => h.changeType == some "INCREASE" || h.changeType == some "NEW")
  let insiderScore := (insiderBuys.map (fun tx =>
    calculateInsiderWeight ⟨tx.insiderTitle, tx.transactionType, tx.shares, tx.pricePerShare⟩)).sum
  let congressScore := (congressBuys.map (fun tx =>
    calculateCongressWeight ⟨tx.memberName, tx.committees, tx.transactionType, tx.amountRange⟩)).sum
  let institutionalScore := (institutionalIncreases.map calculateInstitutionalWeight).sum
  let activeCategories :=
    (([decide (0 < insiderBuys.length), decide (0 < congressBuys.length),
        decide (0 < institutionalIncreases.length)] : List Bool).filter id).length
  let convergenceBonus : ℚ :=
    if 3 ≤ activeCategories then 30 else if 2 ≤ activeCategories then 15 else 0
  let normalizedInsider := min 100 (insiderScore * 2)
  let normalizedCongress := min 100 (congressScore * 2)
  let normalizedInstitutional := min 100 (institutionalScore * 2)
  let convergenceScore :=
    min 100
      ((normalizedInsider * 0.35 + normalizedCongress * 0.3 +
          normalizedInstitutional * 0.25 + convergenceBonus) *
        (if 2 ≤ activeCategories then 1.2 else 1))
  let recentBuyers : List RecentBuyer :=
    (insiderBuys.take 5).map (fun tx =>
      { name := tx.insiderName, rbType := getInsiderType tx.insiderTitle,
        date := tx.transactionDate, amount := some (tx.shares * tx.pricePerShare) })
    ++ (congressBuys.take 3).map (fun tx =>
      { name := tx.memberName, rbType := "Congress",
        date := tx.transactionDate, amountRange := some tx.amountRange })
    ++ (institutionalIncreases.take 3).map (fun h =>
      { name := h.institutionName, rbType := "Institution",
        date := h.filingDate, amount := some h.value })
  { ticker := ticker
    companyName :=
      jsOrStr (insider.head?.bind (fun t => t.companyName))
        (institutional.head?.bind (fun h => h.companyName))
    date := now
    convergenceScore := convergenceScore
    insiderScore := normalizedInsider
    congressScore := normalizedCongress
    institutionalScore := normalizedInstitutional
    convergenceBonus := convergenceBonus
    signals := ⟨insiderBuys.length, congressBuys.length, institutionalIncreases.length⟩
    recentBuyers := List.insertionSort (fun a b => b.date ≤ a.date) recentBuyers }

/-- Input record of `detectConvergence`. -/
structure ConvergenceInput : Type where
  insiderTransactions : List InsiderTransaction
  congressTransactions : List CongressTransaction
  institutionalHoldings : List InstitutionalHolding
  lookbackDays : ℤ := 0

/-- `ConvergenceAnalyzer.detectConvergence`: group by ticker, score each
ticker, keep scores above the noise floor, sort by score descending. -/
def detectConvergence (now : ℤ) (input : ConvergenceInput) : List ConvergenceSignal :=
  let tickers := dedupFirst
    (input.insiderTransactions.map (fun t => t.ticker)
      ++ input.congressTransactions.map (fun t => t.ticker)
      ++ input.institutionalHoldings.map (fun h => h.ticker))
  let sigs := tickers.map (fun t =>
    computeTickerSignal now t
      (input.insiderTransactions.filter (fun tx => tx.ticker == t))
      (input.congressTransactions.filter (fun tx => tx.ticker == t))
      (input.institutionalHoldings.filter (fun h => h.ticker == t)))
  let emitted := sigs.filter (fun s => decide (10 < s.convergenceScore))
  List.insertionSort (fun a b => b.convergenceScore ≤ a.convergenceScore) emitted

/-! ## Persistence layer (`Database.saveInsiderTransaction`) -/

/-- `Database.getTransactionKey`: the natural dedup key of an insider
event, rendered exactly as the source's template string. -/
def getTransactionKey (tx : InsiderTransaction) : String :=
  tx.ticker ++ "-" ++ tx.insiderName ++ "-" ++ toString tx.transactionDate
    ++ "-" ++ toString tx.shares

/-- `Database.saveInsiderTransaction` acting on the stored collection:
append a copy with a fresh id unless a record with the same dedup key is
already present. -/
def saveInsiderTransaction (store : List InsiderTransaction)
    (transaction : InsiderTransaction) (freshId : String) : List InsiderTransaction :=
  let key := getTransactionKey transaction
  if store.any (fun r => getTransactionKey r == key) then store
  else store ++ [{ transaction with id := some freshId }]

/-! ## Backtesting Simulator (`Backtester.runBacktest`) -/

/-- A daily price bar (the simulator reads only `date` and `close`). -/
structure HistoricalPrice : Type where
  date : ℤ
  close : ℚ
deriving DecidableEq, Repr

/-- `BacktestConfig`. -/
structure BacktestConfig : Type where
  startDate : ℤ
  endDate : ℤ
  initialCapital : ℚ
  minConvergenceScore : ℚ
  maxPositions : ℤ
  holdingPeriodDays : ℤ
  stopLoss : Option ℚ := none
  takeProfit : Option ℚ := none
deriving DecidableEq, Repr

/-- Exit reasons of a `BacktestTrade`. -/
inductive ExitReason : Type where
  | holding_period
  | stop_loss
  | take_profit
  | end_of_test
deriving DecidableEq, Repr

/-- `BacktestTrade` (one closed position). -/
structure BacktestTrade : Type where
  ticker : String
  entryDate : ℤ
  entryPrice : ℚ
  exitDate : ℤ
  exitPrice : ℚ
  shares : ℤ
  positionValue : ℚ
  returnPercent : ℚ
  returnDollars : ℚ
  convergenceScoreAtEntry : ℚ
  holdingDays : ℤ
  exitReason : ExitReason
deriving DecidableEq, Repr

/-- A simulator-internal open position. In the source `entryDate`
holds a *reference* to the single `currentDate` object that the day
loop mutates in place, never a snapshot, so its value at any read
during day `cur` is `cur` itself; `exitOne` models those reads
accordingly. The field here records the day the position was opened
and is not read by the simulation. -/
structure Position : Type where
  signal : ConvergenceSignal
  entryDate : ℤ
  entryPrice : ℚ
  shares : ℤ
deriving DecidableEq, Repr

/-- `BacktestResult`. `totalReturn` is a `JsNum` because the source
divides by the configured `initialCapital` without a zero guard. -/
structure BacktestResult : Type where
  config : BacktestConfig
  period : Option (ℤ × ℤ)
  trades : List BacktestTrade := []
  totalReturn : JsNum
  totalReturnDollars : ℚ := 0
  finalCapital : ℚ
  winRate : ℚ := 0
  avgWin : ℚ := 0
  avgLoss : ℚ := 0
  maxDrawdown : ℚ := 0
  maxDrawdownDate : Option ℤ := none
  totalTrades : ℕ := 0
  winningTrades : ℕ := 0
  losingTrades : ℕ := 0
  avgHoldingPeriod : ℚ := 0
  bestTrade : Option BacktestTrade := none
  worstTrade : Option BacktestTrade := none
deriving DecidableEq, Repr

/-- The price collaborator: every ticker's full daily bar list. -/
def PriceSeries : Type := String → List HistoricalPrice

/-- `Backtester.loadHistoricalPrices`: the bars of `ticker` between
`rangeStart` and `rangeEnd` inclusive. -/
def loadHistoricalPrices (series : PriceSeries) (ticker : String)
    (rangeStart rangeEnd : ℤ) : List HistoricalPrice :=
  (series ticker).filter (fun p => decide (rangeStart ≤ p.date) && decide (p.date ≤ rangeEnd))

/-- `Backtester.getPriceOnDate`: first bar dated on/after the target,
else the last bar, else nothing. -/
def getPriceOnDate (prices : List HistoricalPrice) (target : ℤ) : Option HistoricalPrice :=
  match prices.find? (fun p => decide (target ≤ p.date)) with
  | some p => some p
  | none => prices.getLast?

/-- `Map.set` on the insertion-ordered position table: replace in place
if the key is present, else append. -/
def assocSet (l : List (String × Position)) (k : String) (v : Position) :
    List (String × Position) :=
  match l with
  | [] => [(k, v)]
  | e :: t => if e.1 = k then (k, v) :: t else e :: assocSet t k v

/-- Running state of one backtest simulation. -/
structure SimState : Type where
  capital : ℚ
  positions : List (String × Position)
  trades : List BacktestTrade
  maxCapital : ℚ
  maxDrawdown : ℚ
  maxDrawdownDate : Option ℤ
deriving DecidableEq, Repr

/-- One iteration of the entry loop: try to open a position for one
day-signal (skipped when no price is found, capital is not positive, or
the computed share count is not positive). The stored `entryDate` is
the opening day; the source stores a reference to the mutated
`currentDate` object instead (see `Position` and `exitOne`). -/
def openOne (cfg : BacktestConfig) (series : PriceSeries) (cur : ℤ)
    (st : SimState) (sig : ConvergenceSignal) : SimState :=
  let prices := loadHistoricalPrices series sig.ticker cur (cfg.endDate + cfg.holdingPeriodDays)
  match getPriceOnDate prices cur with
  | none => st
  | some p =>
    if 0 < st.capital then
      let slots : ℤ := cfg.maxPositions - (st.positions.length : ℤ)
      let positionSize : ℚ := st.capital / (slots : ℚ)
      let shares : ℤ := ⌊positionSize / p.close⌋
      if 0 < shares then
        { st with
          capital := st.capital - (shares : ℚ) * p.close,
          positions := assocSet st.positions sig.ticker
            ⟨sig, cur, p.close, shares⟩ }
      else st
    else st

/-- JavaScript truthiness of an optional numeric config field
(`undefined` and `0` are both falsy). -/
def optTruthy (o : Option ℚ) : Option ℚ :=
  match o with
  | some v => if v = 0 then none else some v
  | none => none

/-- The source's four sequential exit checks: each later check
overwrites `exitReason`, so the LAST satisfied condition names the exit.
Returns `(shouldExit, exitReason)`. -/
def evalExitReason (stopT profitT holdT endT : Bool) : Bool × ExitReason :=
  let s0 : Bool × ExitReason := (false, ExitReason.holding_period)
  let s1 := if stopT then (true, ExitReason.stop_loss) else s0
  let s2 := if profitT then (true, ExitReason.take_profit) else s1
  let s3 := if holdT then (true, ExitReason.holding_period) else s2
  if endT then (true, ExitReason.end_of_test) else s3

/-- One iteration of the exit loop over the open-position table:
`(capital, keptPositions, trades)` threaded in entry order.

In the source, `position.entryDate` is a reference to the single
`currentDate` object that the day loop mutates in place, so every read
of it during day `cur` yields `cur` itself: `daysSinceEntry`
(`currentDate − position.entryDate` in days) is always `cur − cur = 0`,
the price range requested for the exit check is `[cur, cur]`, and the
recorded trade's `entryDate` and `holdingDays` come out as `cur` and
`0`. (The recorded `Date` fields keep aliasing the mutating object
after the push as well; no property below reads them.) -/
def exitOne (cfg : BacktestConfig) (series : PriceSeries) (cur : ℤ)
    (acc : ℚ × List (String × Position) × List BacktestTrade)
    (entry : String × Position) : ℚ × List (String × Position) × List BacktestTrade :=
  let cap := acc.1
  let kept := acc.2.1
  let trades := acc.2.2
  let pos := entry.2
  let daysSinceEntry := cur - cur
  let prices := loadHistoricalPrices series entry.1 cur cur
  match getPriceOnDate prices cur with
  | none => (cap, kept ++ [entry], trades)
  | some p =>
    let returnPercent := (p.close - pos.entryPrice) / pos.entryPrice * 100
    let stopT := match optTruthy cfg.stopLoss with
      | some sl => decide (returnPercent ≤ -sl)
      | none => false
    let profitT := match optTruthy cfg.takeProfit with
      | some tp => decide (tp ≤ returnPercent)
      | none => false
    let holdT := decide (cfg.holdingPeriodDays ≤ daysSinceEntry)
    let endT := decide (cfg.endDate ≤ cur)
    let decision := evalExitReason stopT profitT holdT endT
    if decision.1 then
      let trade : BacktestTrade :=
        { ticker := entry.1
          entryDate := cur
          entryPrice := pos.entryPrice
          exitDate := cur
          exitPrice := p.close
          shares := pos.shares
          positionValue := (pos.shares : ℚ) * pos.entryPrice
          returnPercent := returnPercent
          returnDollars := (pos.shares : ℚ) * (p.close - pos.entryPrice)
          convergenceScoreAtEntry := pos.signal.convergenceScore
          holdingDays := daysSinceEntry
          exitReason := decision.2 }
      (cap + (pos.shares : ℚ) * p.close, kept, trades ++ [trade])
    else (cap, kept ++ [entry], trades)

/-- One simulated calendar day: signal intake and entries, exit
evaluation, drawdown tracking. -/
def simDay (cfg : BacktestConfig) (series : PriceSeries)
    (qualified : List ConvergenceSignal) (st : SimState) (cur : ℤ) : SimState :=
  let daySignals := qualified.filter (fun s =>
    decide (s.date = cur) && !(st.positions.any (fun e => e.1 == s.ticker)))
  let toOpen := jsSliceTo daySignals (cfg.maxPositions - (st.positions.length : ℤ))
  let st1 := toOpen.foldl (openOne cfg series cur) st
  let exited := st1.positions.foldl (exitOne cfg series cur) (st1.capital, [], st1.trades)
  let cap2 := exited.1
  let pos2 := exited.2.1
  let trades2 := exited.2.2
  let totalValue := cap2 + (pos2.map (fun e => (e.2.shares : ℚ) * e.2.entryPrice)).sum
  let maxCap := max st1.maxCapital totalValue
  let currentDrawdown := (totalValue - maxCap) / maxCap * 100
  if currentDrawdown < st1.maxDrawdown then
    { capital := cap2, positions := pos2, trades := trades2,
      maxCapital := maxCap, maxDrawdown := currentDrawdown, maxDrawdownDate := some cur }
  else
    { capital := cap2, positions := pos2, trades := trades2,
      maxCapital := maxCap, maxDrawdown := st1.maxDrawdown,
      maxDrawdownDate := st1.maxDrawdownDate }

/-- The consecutive calendar days visited by the `while` loop:
`startDate, startDate + 1, …, endDate` (empty when the end precedes the
start). -/
def dayRange (s e : ℤ) : List ℤ :=
  (List.range (e - s + 1).toNat).map (fun i => s + (i : ℤ))

/-- The whole day-by-day simulation: fold `simDay` over the window. -/
def simRun (cfg : BacktestConfig) (series : PriceSeries)
    (qualified : List ConvergenceSignal) (st : SimState) (days : List ℤ) : SimState :=
  days.foldl (simDay cfg series qualified) st

/-- The simulator's initial state. -/
def initState (cfg : BacktestConfig) : SimState :=
  { capital := cfg.initialCapital, positions := [], trades := [],
    maxCapital := cfg.initialCapital, maxDrawdown := 0, maxDrawdownDate := none }

/-- The source's `reduce` for the best trade; note `||`
treats a best-so-far return of exactly 0 as falsy. -/
def bestTradeFold (trades : List BacktestTrade) : Option BacktestTrade :=
  trades.foldl
    (fun best t =>
      match best with
      | none => some t
      | some b =>
        if b.returnPercent = 0 then some t
        else if b.returnPercent < t.returnPercent then some t else some b)
    none

/-- The source's `reduce` for the worst trade (same `||` quirk at 0). -/
def worstTradeFold (trades : List BacktestTrade) : Option BacktestTrade :=
  trades.foldl
    (fun worst t =>
      match worst with
      | none => some t
      | some b =>
        if b.returnPercent = 0 then some t
        else if t.returnPercent < b.returnPercent then some t else some b)
    none

/-- `Backtester.runBacktest`, with the signal source and the price
collaborator passed as explicit inputs. -/
def runBacktest (cfg : BacktestConfig) (signals : List ConvergenceSignal)
    (series : PriceSeries) : BacktestResult :=
  let qualifiedSignals := signals.filter (fun s =>
    decide (cfg.minConvergenceScore ≤ s.convergenceScore))
  let final := simRun cfg series qualifiedSignals (initState cfg)
    (dayRange cfg.startDate cfg.endDate)
  let trades := final.trades
  let winningTrades := trades.filter (fun t => decide (0 < t.returnPercent))
  let losingTrades := trades.filter (fun t => decide (t.returnPercent ≤ 0))
  { config := cfg
    period := some (cfg.startDate, cfg.endDate)
    trades := trades
    totalReturn := jsPercent (final.capital - cfg.initialCapital) cfg.initialCapital
    totalReturnDollars := final.capital - cfg.initialCapital
    finalCapital := final.capital
    winRate := if trades.length ≠ 0 then (winningTrades.length : ℚ) / (trades.length : ℚ) else 0
    avgWin :=
      if winningTrades.length ≠ 0 then
        (winningTrades.map (fun t => t.returnPercent)).sum / (winningTrades.length : ℚ)
      else 0
    avgLoss :=
      if losingTrades.length ≠ 0 then
        (losingTrades.map (fun t => t.returnPercent)).sum / (losingTrades.length : ℚ)
      else 0
    maxDrawdown := final.maxDrawdown
    maxDrawdownDate := final.maxDrawdownDate
    totalTrades := trades.length
    winningTrades := winningTrades.length
    losingTrades := losingTrades.length
    avgHoldingPeriod :=
      if trades.length ≠ 0 then
        (trades.map (fun t => (t.holdingDays : ℚ))).sum / (trades.length : ℚ)
      else 0
    bestTrade := bestTradeFold trades
    worstTrade := worstTradeFold trades }

/-! ## Benchmark Comparator (`Backtester.compareToSPY`) -/

/-- `SPYComparison`. Fields derived from the possibly-`NaN` strategy
return stay in `JsNum`. -/
structure SPYComparison : Type where
  strategyReturn : JsNum
  spyReturn : JsNum
  alpha : JsNum
  outperformed : Bool
  strategyFinalValue : ℚ
  spyFinalValue : JsNum
deriving DecidableEq, Repr

/-- The degenerate comparison the source returns when the period is
missing or fewer than two benchmark bars exist. -/
def flatComparison (result : BacktestResult) : SPYComparison :=
  { strategyReturn := result.totalReturn
    spyReturn := JsNum.num 0
    alpha := result.totalReturn
    outperformed := true
    strategyFinalValue := result.finalCapital
    spyFinalValue := JsNum.num result.config.initialCapital }

/-- `Backtester.compareToSPY`. `spyPrices[0]` and
`spyPrices[spyPrices.length - 1]` are modelled by `headD`/`getLastD`
(both are guarded by the `length < 2` early return). -/
def compareToSPY (series : PriceSeries) (result : BacktestResult) : SPYComparison :=
  match result.period with
  | none => flatComparison result
  | some pr =>
    let spyPrices := loadHistoricalPrices series "SPY" pr.1 pr.2
    if spyPrices.length < 2 then flatComparison result
    else
      let spyStartPrice := (spyPrices.headD ⟨0, 0⟩).close
      let spyEndPrice := (spyPrices.getLastD ⟨0, 0⟩).close
      let spyReturn := jsMulR (jsDivQ (spyEndPrice - spyStartPrice) spyStartPrice) 100
      { strategyReturn := result.totalReturn
        spyReturn := spyReturn
        alpha := jsSub result.totalReturn spyReturn
        outperformed := jsGtB result.totalReturn spyReturn
        strategyFinalValue := result.finalCapital
        spyFinalValue := jsMulL result.config.initialCapital (jsAddOne (jsDivHundred spyReturn)) }

/-! ## Theorems -/

/-- **C8.** Ingestion of insider events is idempotent under dedup-key
equality: saving a second event with the same dedup key is a no-op on
the stored collection, and a first save into a store without that key
leaves exactly one record carrying the key. -/
theorem C8_ingestion_idempotent
    (store : List InsiderTransaction) (tx tx2 : InsiderTransaction) (i j : String)
    (hkey : getTransactionKey tx2 = getTransactionKey tx)
    (hfresh : ∀ r ∈ store, getTransactionKey r ≠ getTransactionKey tx) :
    saveInsiderTransaction (saveInsiderTransaction store tx i) tx2 j
        = saveInsiderTransaction store tx i
    ∧ (saveInsiderTransaction store tx i).countP
        (fun r => getTransactionKey r == getTransactionKey tx) = 1 := by
  have hid : getTransactionKey { tx with id := some i } = getTransactionKey tx := rfl
  have hany : store.any (fun r => getTransactionKey r == getTransactionKey tx) = false := by
    simp only [List.any_eq_false, beq_iff_eq]
    exact hfresh
  have hsave : saveInsiderTransaction store tx i = store ++ [{ tx with id := some i }] := by
    simp [saveInsiderTransaction, hany]
  constructor
  · rw [hsave]
    have hany2 : (store ++ [{ tx with id := some i }]).any
        (fun r => getTransactionKey r == getTransactionKey tx2) = true := by
      simp only [List.any_append, List.any_cons, List.any_nil, Bool.or_false,
        Bool.or_eq_true, beq_iff_eq]
      exact Or.inr (by rw [hid, hkey])
    simp [saveInsiderTransaction, hany2]
  · rw [hsave, List.countP_append]
    have h0 : store.countP (fun r => getTransactionKey r == getTransactionKey tx) = 0 := by
      simp only [List.countP_eq_zero, beq_iff_eq]
      exact hfresh
    have h1 : ([{ tx with id := some i }] : List InsiderTransaction).countP
        (fun r => getTransactionKey r == getTransactionKey tx) = 1 := by
      simp [List.countP_cons, hid]
    omega

/-- Concrete insider event used by the C8 witness. -/
def C8tx : InsiderTransaction :=
  { ticker := "AAPL", insiderName := "Jane Doe", insiderTitle := "CEO",
    transactionType := "BUY", shares := 100, pricePerShare := 50,
    transactionDate := 10 }

theorem C8_ingestion_idempotent_witness :
    (getTransactionKey C8tx = getTransactionKey C8tx ∧
      ∀ r ∈ ([] : List InsiderTransaction), getTransactionKey r ≠ getTransactionKey C8tx)
    ∧ (saveInsiderTransaction (saveInsiderTransaction [] C8tx "id1") C8tx "id2"
        = saveInsiderTransaction [] C8tx "id1"
      ∧ (saveInsiderTransaction [] C8tx "id1").countP
          (fun r => getTransactionKey r == getTransactionKey C8tx) = 1) :=
  ⟨⟨rfl, by simp⟩, C8_ingestion_idempotent [] C8tx C8tx "id1" "id2" rfl (by simp)⟩

/-- **C9.** The benchmark comparator: with fewer than two benchmark
bars in the period it reports a flat benchmark (0%) and alpha equal to
the strategy's own return (and returns normally rather than raising);
with at least two bars the benchmark return is the percent change
between the first and last bar's close and alpha is the strategy return
minus the benchmark return. -/
theorem C9_benchmark_comparator
    (series : PriceSeries) (result : BacktestResult) (pr : ℤ × ℤ)
    (hpr : result.period = some pr) :
    ((loadHistoricalPrices series "SPY" pr.1 pr.2).length < 2 →
        (compareToSPY series result).spyReturn = JsNum.num 0
        ∧ (compareToSPY series result).alpha = result.totalReturn
        ∧ (compareToSPY series result).strategyReturn = result.totalReturn)
    ∧ (∀ p0 p1 rest pl,
        loadHistoricalPrices series "SPY" pr.1 pr.2 = p0 :: p1 :: rest →
        (p1 :: rest).getLast? = some pl →
        p0.close ≠ 0 →
        (compareToSPY series result).spyReturn
            = JsNum.num ((pl.close - p0.close) / p0.close * 100)
        ∧ (∀ t, result.totalReturn = JsNum.num t →
            (compareToSPY series result).alpha
              = JsNum.num (t - (pl.close - p0.close) / p0.close * 100))) := by
  constructor
  · intro hlen
    simp [compareToSPY, hpr, hlen, flatComparison]
  · intro p0 p1 rest pl hL hlast h0
    have hlen : ¬ (loadHistoricalPrices series "SPY" pr.1 pr.2).length < 2 := by
      rw [hL]; simp [List.length_cons]
    have hlast2 : (loadHistoricalPrices series "SPY" pr.1 pr.2).getLastD ⟨0, 0⟩ = pl := by
      rw [hL, List.getLastD_eq_getLast?]
      rw [List.getLast?_cons_cons, hlast]
      rfl
    have hhead : (loadHistoricalPrices series "SPY" pr.1 pr.2).headD ⟨0, 0⟩ = p0 := by
      rw [hL]; rfl
    have hspy : (compareToSPY series result).spyReturn
        = JsNum.num ((pl.close - p0.close) / p0.close * 100) := by
      simp only [compareToSPY, hpr, hlen, if_false, hlast2, hhead]
      simp [jsMulR, jsMulL, jsDivQ, h0, mul_comm]
    refine ⟨hspy, ?_⟩
    intro t ht
    simp only [compareToSPY, hpr, hlen, if_false, hlast2, hhead, ht]
    simp [jsMulR, jsMulL, jsDivQ, jsSub, h0, mul_comm]

/-- Config record shared by the comparator witnesses. -/
def C9cfg : BacktestConfig :=
  { startDate := 0, endDate := 1, initialCapital := 100000,
    minConvergenceScore := 60, maxPositions := 5, holdingPeriodDays := 30 }

/-- Strategy result record used by the C9 witness. -/
def C9res : BacktestResult :=
  { config := C9cfg, period := some (0, 1), totalReturn := JsNum.num 5,
    finalCapital := 105000 }

/-- Benchmark series with two bars used by the C9 witness. -/
def C9series : PriceSeries := fun _ => [⟨0, 100⟩, ⟨1, 110⟩]

theorem C9_benchmark_comparator_witness :
    ((loadHistoricalPrices (fun _ => []) "SPY" 0 1).length < 2
      ∧ (compareToSPY (fun _ => []) C9res).spyReturn = JsNum.num 0
      ∧ (compareToSPY (fun _ => []) C9res).alpha = C9res.totalReturn)
    ∧ (loadHistoricalPrices C9series "SPY" 0 1 = [⟨0, 100⟩, ⟨1, 110⟩]
      ∧ (compareToSPY C9series C9res).spyReturn = JsNum.num 10
      ∧ (compareToSPY C9series C9res).alpha = JsNum.num (-5)) := by
  have hL : loadHistoricalPrices C9series "SPY" 0 1 = [⟨0, 100⟩, ⟨1, 110⟩] := by
    simp [loadHistoricalPrices, C9series]
  have hflat := (C9_benchmark_comparator (fun _ => []) C9res (0, 1) rfl).1
    (by simp [loadHistoricalPrices])
  have hmain := (C9_benchmark_comparator C9series C9res (0, 1) rfl).2
    ⟨0, 100⟩ ⟨1, 110⟩ [] ⟨1, 110⟩ hL rfl (by norm_num)
  refine ⟨⟨by simp [loadHistoricalPrices], hflat.1, hflat.2.1⟩, hL, ?_, ?_⟩
  · rw [hmain.1]; norm_num
  · rw [hmain.2 5 rfl]; norm_num

/-- **C10.** In the degenerate benchmark cases (missing period or fewer
than two benchmark bars) the comparator's `outperformed` flag is
hard-coded `true`, regardless of the strategy's return. -/
theorem C10_degenerate_outperformed
    (series : PriceSeries) (result : BacktestResult)
    (hdeg : result.period = none ∨ ∃ pr, result.period = some pr ∧
        (loadHistoricalPrices series "SPY" pr.1 pr.2).length < 2) :
    (compareToSPY series result).outperformed = true := by
  rcases hdeg with hnone | ⟨pr, hpr, hlen⟩
  · simp [compareToSPY, hnone, flatComparison]
  · simp [compareToSPY, hpr, hlen, flatComparison]

/-- Losing-strategy result record used by the C10 witness. -/
def C10res : BacktestResult :=
  { config := C9cfg, period := some (0, 1), totalReturn := JsNum.num (-20),
    finalCapital := 80000 }

theorem C10_degenerate_outperformed_witness :
    C10res.totalReturn = JsNum.num (-20)
    ∧ (compareToSPY (fun _ => []) C10res).outperformed = true :=
  ⟨rfl, C10_degenerate_outperformed (fun _ => []) C10res
    (Or.inr ⟨(0, 1), rfl, by simp [loadHistoricalPrices]⟩)⟩

/-- Every step of the weight-table folds only ever raises the
accumulator. -/
theorem foldl_step_mono {α : Type} (f : ℚ → α → ℚ) (hf : ∀ a x, a ≤ f a x) :
    ∀ (l : List α) (a : ℚ), a ≤ l.foldl f a := by
  intro l
  induction l with
  | nil => intro a; exact le_refl a
  | cons hd tl ih =>
    intro a
    exact le_trans (hf a hd) (ih (f a hd))

/-- The title lookup never returns less than the default floor of 3. -/
theorem insiderBaseWeight_ge (title : String) : 3 ≤ insiderBaseWeight title := by
  unfold insiderBaseWeight
  apply foldl_step_mono
  intro a x
  by_cases h : strIncludes (jsUpper title) (jsUpper x.1) = true
  · simp [h, le_max_left]
  · simp [h]

theorem insiderBaseWeight_CEO : insiderBaseWeight "CEO" = 10 := by
  norm_num +decide [insiderBaseWeight, INSIDER_WEIGHTS, strIncludes, jsUpper, subIn, prefixAt]

theorem insiderBaseWeight_Director : insiderBaseWeight "Director" = 5 := by
  norm_num +decide [insiderBaseWeight, INSIDER_WEIGHTS, strIncludes, jsUpper, subIn, prefixAt]

theorem insiderTxMultiplier_pos (ty : String) : 0 < insiderTxMultiplier ty := by
  unfold insiderTxMultiplier
  split_ifs <;> norm_num

theorem insiderSizeMultiplier_pos (v : ℚ) : 0 < insiderSizeMultiplier v := by
  unfold insiderSizeMultiplier
  split_ifs <;> norm_num [TRANSACTION_SIZE_MULTIPLIERS]

theorem insiderSizeMultiplier_mono {v w : ℚ} (h : v ≤ w) :
    insiderSizeMultiplier v ≤ insiderSizeMultiplier w := by
  unfold insiderSizeMultiplier
  split_ifs <;> norm_num [TRANSACTION_SIZE_MULTIPLIERS] <;> linarith

/-- **C6.** Insider-weight monotonicity: (a) for fixed kind and size a
CEO title outweighs a Director title strictly (and in general a title
with a strictly larger table weight yields a strictly larger weight);
(b) for fixed title and kind the weight is non-decreasing in the
transaction's dollar value. -/
theorem C6_insider_weight_monotonic :
    (∀ (ty : String) (sh pr : ℚ),
        calculateInsiderWeight ⟨"Director", ty, sh, pr⟩
          < calculateInsiderWeight ⟨"CEO", ty, sh, pr⟩)
    ∧ (∀ (t1 t2 ty : String) (sh pr : ℚ),
        insiderBaseWeight t2 < insiderBaseWeight t1 →
        calculateInsiderWeight ⟨t2, ty, sh, pr⟩ < calculateInsiderWeight ⟨t1, ty, sh, pr⟩)
    ∧ (∀ (ti ty : String) (sh1 pr1 sh2 pr2 : ℚ),
        sh2 * pr2 ≤ sh1 * pr1 →
        calculateInsiderWeight ⟨ti, ty, sh2, pr2⟩ ≤ calculateInsiderWeight ⟨ti, ty, sh1, pr1⟩) := by
  have hgen : ∀ (t1 t2 ty : String) (sh pr : ℚ),
      insiderBaseWeight t2 < insiderBaseWeight t1 →
      calculateInsiderWeight ⟨t2, ty, sh, pr⟩ < calculateInsiderWeight ⟨t1, ty, sh, pr⟩ := by
    intro t1 t2 ty sh pr hb
    unfold calculateInsiderWeight
    apply mul_lt_mul_of_pos_right _ (insiderSizeMultiplier_pos _)
    exact mul_lt_mul_of_pos_right hb (insiderTxMultiplier_pos ty)
  refine ⟨?_, hgen, ?_⟩
  · intro ty sh pr
    apply hgen
    rw [insiderBaseWeight_CEO, insiderBaseWeight_Director]
    norm_num
  · intro ti ty sh1 pr1 sh2 pr2 hval
    unfold calculateInsiderWeight
    apply mul_le_mul_of_nonneg_left (insiderSizeMultiplier_mono hval)
    have h3 := insiderBaseWeight_ge ti
    have := insiderTxMultiplier_pos ty
    positivity

theorem C6_insider_weight_monotonic_witness :
    (calculateInsiderWeight ⟨"Director", "BUY", 1000, 10⟩
        < calculateInsiderWeight ⟨"CEO", "BUY", 1000, 10⟩)
    ∧ (insiderBaseWeight "Director" < insiderBaseWeight "CEO"
        ∧ calculateInsiderWeight ⟨"Director", "BUY", 1000, 10⟩
            < calculateInsiderWeight ⟨"CEO", "BUY", 1000, 10⟩)
    ∧ ((100 : ℚ) * 10 ≤ 1000 * 10
        ∧ calculateInsiderWeight ⟨"CEO", "BUY", 100, 10⟩
            ≤ calculateInsiderWeight ⟨"CEO", "BUY", 1000, 10⟩) := by
  have hb : insiderBaseWeight "Director" < insiderBaseWeight "CEO" := by
    rw [insiderBaseWeight_CEO, insiderBaseWeight_Director]; norm_num
  exact ⟨C6_insider_weight_monotonic.1 "BUY" 1000 10,
    ⟨hb, C6_insider_weight_monotonic.2.1 "CEO" "Director" "BUY" 1000 10 hb⟩,
    ⟨by norm_num, C6_insider_weight_monotonic.2.2 "CEO" "BUY" 1000 10 100 10 (by norm_num)⟩⟩

/-- Config with zero starting capital used against claim C5. -/
def C5cfg : BacktestConfig :=
  { startDate := 0, endDate := 0, initialCapital := 0,
    minConvergenceScore := 0, maxPositions := 5, holdingPeriodDays := 30 }

/-- **C5 (counterexample).** The total-return division is not guarded:
with a zero starting capital `runBacktest` reports `NaN`
(`(0 - 0) / 0 * 100`), not the claimed defined result `0`. -/
theorem C5_div_by_zero_counterexample :
    (runBacktest C5cfg [] (fun _ => [])).totalReturn ≠ JsNum.num 0 := by
  have hdr : dayRange 0 0 = [0] := by decide
  have h : (runBacktest C5cfg [] (fun _ => [])).totalReturn = JsNum.nan := by
    norm_num [runBacktest, C5cfg, simRun, hdr, simDay, initState, jsSliceTo,
      exitOne, optTruthy, evalExitReason, loadHistoricalPrices, getPriceOnDate,
      jsPercent, jsDivQ, jsMulR, jsMulL, bestTradeFold, worstTradeFold]
  rw [h]
  simp

/-- **C5 (amended).** The percentage computations are unguarded: a
return percent against a zero entry price evaluates to `+Infinity` for
a positive close (the source expression is
`((close - entryPrice) / entryPrice) * 100`), and the total return
against zero starting capital evaluates to `NaN`; neither is `0`, and
no exception is thrown (the operations are total). -/
theorem C5_div_by_zero_amended :
    (∀ close : ℚ, 0 < close → jsPercent (close - 0) 0 = JsNum.posInf)
    ∧ (runBacktest C5cfg [] (fun _ => [])).totalReturn = JsNum.nan
    ∧ JsNum.posInf ≠ JsNum.num 0 ∧ JsNum.nan ≠ JsNum.num 0 := by
  refine ⟨?_, ?_, by simp, by simp⟩
  · intro close h
    simp [jsPercent, jsDivQ, jsMulR, jsMulL, sub_zero, h]
  · have hdr : dayRange 0 0 = [0] := by decide
    norm_num [runBacktest, C5cfg, simRun, hdr, simDay, initState, jsSliceTo,
      exitOne, optTruthy, evalExitReason, loadHistoricalPrices, getPriceOnDate,
      jsPercent, jsDivQ, jsMulR, jsMulL, bestTradeFold, worstTradeFold]

theorem C5_div_by_zero_amended_witness :
    (0 : ℚ) < 103 ∧ jsPercent ((103 : ℚ) - 0) 0 = JsNum.posInf :=
  ⟨by norm_num, C5_div_by_zero_amended.1 103 (by norm_num)⟩

/-- **C2 (amended).** `runBacktest` performs no configuration
validation: when the end date precedes the start date the simulated
window is empty and the call returns a silently empty
result — no trades, final capital equal to the configured initial
capital — instead of rejecting the config. -/
theorem C2_no_validation_amended
    (cfg : BacktestConfig) (signals : List ConvergenceSignal) (series : PriceSeries)
    (h : cfg.endDate < cfg.startDate) :
    (runBacktest cfg signals series).trades = []
    ∧ (runBacktest cfg signals series).finalCapital = cfg.initialCapital
    ∧ (runBacktest cfg signals series).totalTrades = 0 := by
  have hle : cfg.endDate - cfg.startDate + 1 ≤ 0 := by omega
  have hdr : dayRange cfg.startDate cfg.endDate = [] := by
    simp [dayRange, Int.toNat_of_nonpos hle]
  refine ⟨?_, ?_, ?_⟩ <;>
    simp [runBacktest, simRun, hdr, initState]

/-- Config whose end date precedes its start date. -/
def C2cfgRev : BacktestConfig :=
  { startDate := 5, endDate := 4, initialCapital := 1000,
    minConvergenceScore := 0, maxPositions := 3, holdingPeriodDays := 10 }

/-- Config with `maxPositions = 0`. -/
def C2cfgZero : BacktestConfig :=
  { startDate := 0, endDate := 0, initialCapital := 1000,
    minConvergenceScore := 0, maxPositions := 0, holdingPeriodDays := 10 }

/-- A qualifying signal available to the C2 runs. -/
def C2sig : ConvergenceSignal := { ticker := "A", date := 0, convergenceScore := 50 }

/-- A price series with a bar on day 0. -/
def C2series : PriceSeries := fun _ => [⟨0, 100⟩]

/-- **C2 (counterexample).** Both invalid configs — end before start,
and `maxPositions ≤ 0` — are accepted and produce a normal, silently
empty `BacktestResult` (no trades, capital untouched), even though a
qualifying signal and a price were available; `runBacktest` never
fails. -/
theorem C2_no_validation_counterexample :
    C2cfgRev.endDate < C2cfgRev.startDate
    ∧ (runBacktest C2cfgRev [C2sig] C2series).trades = []
    ∧ (runBacktest C2cfgRev [C2sig] C2series).finalCapital = 1000
    ∧ C2cfgZero.maxPositions ≤ 0
    ∧ (runBacktest C2cfgZero [C2sig] C2series).trades = []
    ∧ (runBacktest C2cfgZero [C2sig] C2series).finalCapital = 1000 := by
  have hdr1 : dayRange 5 4 = [] := by decide
  have hdr2 : dayRange 0 0 = [0] := by decide
  refine ⟨by norm_num [C2cfgRev], ?_, ?_, by norm_num [C2cfgZero], ?_, ?_⟩ <;>
    norm_num [runBacktest, C2cfgRev, C2cfgZero, C2sig, C2series, simRun, hdr1, hdr2,
      simDay, initState, jsSliceTo, openOne, exitOne, optTruthy, evalExitReason,
      loadHistoricalPrices, getPriceOnDate, jsPercent, jsDivQ, jsMulR, jsMulL,
      bestTradeFold, worstTradeFold]

theorem C2_no_validation_amended_witness :
    C2cfgRev.endDate < C2cfgRev.startDate
    ∧ ((runBacktest C2cfgRev [] (fun _ => [])).trades = []
      ∧ (runBacktest C2cfgRev [] (fun _ => [])).finalCapital = C2cfgRev.initialCapital
      ∧ (runBacktest C2cfgRev [] (fun _ => [])).totalTrades = 0) :=
  ⟨by norm_num [C2cfgRev],
    C2_no_validation_amended C2cfgRev [] (fun _ => []) (by norm_num [C2cfgRev])⟩

/-- Config for C1 run A: 10% stop-loss, 30-day holding period,
window ending on day 2. -/
def C1cfgA : BacktestConfig :=
  { startDate := 0, endDate := 2, initialCapital := 1000,
    minConvergenceScore := 0, maxPositions := 1, holdingPeriodDays := 30,
    stopLoss := some 10 }

/-- Config for C1 run C: a truthy (negative) stop-loss and a zero
holding period, so the stop-loss and holding-period checks hold on the
same day. -/
def C1cfgC : BacktestConfig :=
  { startDate := 0, endDate := 2, initialCapital := 1000,
    minConvergenceScore := 0, maxPositions := 1, holdingPeriodDays := 0,
    stopLoss := some (-5) }

/-- Entry signal for the C1 runs. -/
def C1sig : ConvergenceSignal := { ticker := "A", date := 0, convergenceScore := 50 }

/-- Price path for C1 run A: entry at 100 on day 0, close 80 on the
end date day 2 (a −20% move breaching the 10% stop-loss there). -/
def C1seriesA : PriceSeries := fun _ => [⟨0, 100⟩, ⟨1, 100⟩, ⟨2, 80⟩]

/-- Flat price path for C1 run C. -/
def C1seriesC : PriceSeries := fun _ => [⟨0, 100⟩, ⟨1, 100⟩, ⟨2, 100⟩]

set_option maxHeartbeats 1000000 in
/-- **C1 (counterexample).** Run A: the position entered on day 0
breaches the 10% stop-loss on day 2 (return −20%), which is also the
end of the test window; the single recorded trade says `end_of_test`,
not the `stop_loss` the claimed priority order requires — and its
`holdingDays` is 0 despite the two-day-old position, because
`position.entryDate` aliases the mutated `currentDate`. Run C: on a
day on which the stop-loss check and the holding-period check are both
satisfied (`returnPercent = 0 ≤ −(−5)` and `holdingPeriodDays = 0 ≤
daysSinceEntry = 0`), the recorded reason is `holding_period`, not
`stop_loss`. -/
theorem C1_exit_priority_counterexample :
    ((runBacktest C1cfgA [C1sig] C1seriesA).trades.map (fun t => t.exitReason))
        = [ExitReason.end_of_test]
    ∧ ((runBacktest C1cfgA [C1sig] C1seriesA).trades.map (fun t => t.returnPercent)) = [-20]
    ∧ ((runBacktest C1cfgA [C1sig] C1seriesA).trades.map (fun t => t.holdingDays)) = [0]
    ∧ C1cfgA.stopLoss = some 10
    ∧ ((runBacktest C1cfgC [C1sig] C1seriesC).trades.map (fun t => t.exitReason))
        = [ExitReason.holding_period]
    ∧ C1cfgC.stopLoss = some (-5) ∧ C1cfgC.holdingPeriodDays = 0
    ∧ ExitReason.end_of_test ≠ ExitReason.stop_loss
    ∧ ExitReason.holding_period ≠ ExitReason.stop_loss := by
  have hdr : dayRange 0 2 = [0, 1, 2] := by decide
  refine ⟨?_, ?_, ?_, rfl, ?_, rfl, rfl, by simp, by simp⟩ <;>
    norm_num [runBacktest, C1cfgA, C1cfgC, C1sig, C1seriesA, C1seriesC, simRun, hdr,
      simDay, initState, jsSliceTo, openOne, assocSet, exitOne, optTruthy,
      evalExitReason, loadHistoricalPrices, getPriceOnDate, jsPercent, jsDivQ,
      jsMulR, jsMulL, bestTradeFold, worstTradeFold]

/-- When the holding-period check is off, a triggered exit is never
tagged `holding_period`. -/
theorem evalExitReason_no_hold :
    ∀ s p e, (evalExitReason s p false e).1 = true →
      (evalExitReason s p false e).2 ≠ ExitReason.holding_period := by
  decide

/-- **C1 (amended).** The four exit checks run in sequence and each
later satisfied check overwrites the reason, so the effective priority
is end-of-test, then holding-period, then take-profit, then stop-loss
— the reverse of the claimed order (a stop-loss breach on the final
day is recorded as `end_of_test`, and a day on which both the
stop-loss and holding-period checks hold records `holding_period`).
Moreover, because `position.entryDate` aliases the in-place-mutated
`currentDate`, `daysSinceEntry` is always 0: for a positive
`holdingPeriodDays` the holding-period exit never fires — every exit is
tagged `stop_loss`, `take_profit` or `end_of_test` and records
`holdingDays = 0`. Exactly one `BacktestTrade` is recorded per
processed position: it is either kept or closed with a single appended
trade. -/
theorem C1_exit_priority_amended :
    (∀ s p, evalExitReason s p true false = (true, ExitReason.holding_period))
    ∧ (∀ s p h, evalExitReason s p h true = (true, ExitReason.end_of_test))
    ∧ (∀ s, evalExitReason s true false false = (true, ExitReason.take_profit))
    ∧ evalExitReason true false false false = (true, ExitReason.stop_loss)
    ∧ evalExitReason false false false false = (false, ExitReason.holding_period)
    ∧ (∀ cfg series cur acc entry, 0 < cfg.holdingPeriodDays →
        (exitOne cfg series cur acc entry).2.2 = acc.2.2
        ∨ ∃ tr, (exitOne cfg series cur acc entry).2.2 = acc.2.2 ++ [tr]
            ∧ tr.exitReason ≠ ExitReason.holding_period ∧ tr.holdingDays = 0)
    ∧ (∀ cfg series cur acc entry,
        (exitOne cfg series cur acc entry).2.1.length
          + (exitOne cfg series cur acc entry).2.2.length
          = acc.2.1.length + acc.2.2.length + 1) := by
  refine ⟨?_, ?_, ?_, rfl, rfl, ?_, ?_⟩
  · intro s p; cases s <;> cases p <;> rfl
  · intro s p h; cases s <;> cases p <;> cases h <;> rfl
  · intro s; cases s <;> rfl
  · intro cfg series cur acc entry hpd
    have hh : decide (cfg.holdingPeriodDays ≤ cur - cur) = false := by
      simp
      omega
    rcases h : getPriceOnDate (loadHistoricalPrices series entry.1 cur cur) cur
      with _ | p
    · left
      simp [exitOne, h]
    · simp only [exitOne, h, hh]
      split_ifs with hd
      · right
        refine ⟨_, rfl, ?_, by simp⟩
        exact evalExitReason_no_hold _ _ _ hd
      · left
        rfl
  · intro cfg series cur acc entry
    rcases h : getPriceOnDate (loadHistoricalPrices series entry.1 cur cur) cur
      with _ | p
    · simp [exitOne, h, List.length_append]
      omega
    · simp only [exitOne, h]
      split_ifs <;> simp [List.length_append] <;> omega

theorem C1_exit_priority_amended_witness :
    0 < C1cfgA.holdingPeriodDays
    ∧ ((exitOne C1cfgA C1seriesA 2 (1000, [], []) ("A", ⟨C1sig, 0, 100, 10⟩)).2.2
          = ([] : List BacktestTrade)
      ∨ ∃ tr, (exitOne C1cfgA C1seriesA 2 (1000, [], []) ("A", ⟨C1sig, 0, 100, 10⟩)).2.2
            = ([] : List BacktestTrade) ++ [tr]
          ∧ tr.exitReason ≠ ExitReason.holding_period ∧ tr.holdingDays = 0) :=
  ⟨by norm_num [C1cfgA],
    C1_exit_priority_amended.2.2.2.2.2.1 C1cfgA C1seriesA 2 (1000, [], [])
      ("A", ⟨C1sig, 0, 100, 10⟩) (by norm_num [C1cfgA])⟩

/-- Every insider weight is nonnegative (the title floor is 3 and all
multipliers are positive). -/
theorem calculateInsiderWeight_nonneg (input : InsiderWeightInput) :
    0 ≤ calculateInsiderWeight input := by
  unfold calculateInsiderWeight
  have h1 := insiderBaseWeight_ge input.insiderTitle
  have h2 := insiderTxMultiplier_pos input.transactionType
  have h3 := insiderSizeMultiplier_pos (input.shares * input.pricePerShare)
  positivity

/-- The committee bonus is nonnegative. -/
theorem committeeBonus_nonneg (committees : List String) : 0 ≤ committeeBonus committees := by
  unfold committeeBonus
  apply foldl_step_mono
  intro a c
  apply foldl_step_mono
  intro b nw
  by_cases h : strIncludes (jsLower c) (jsLower nw.1) = true
  · simp [h, le_max_left]
  · simp [h]

/-- Every legislator weight is nonnegative. -/
theorem calculateCongressWeight_nonneg (input : CongressWeightInput) :
    0 ≤ calculateCongressWeight input := by
  unfold calculateCongressWeight congressAmountMultiplier
  have h1 := committeeBonus_nonneg input.committees
  split_ifs <;> positivity

/-- Every institutional weight is nonnegative. -/
theorem calculateInstitutionalWeight_nonneg (holding : InstitutionalHolding) :
    0 ≤ calculateInstitutionalWeight holding := by
  unfold calculateInstitutionalWeight
  rcases holding.ownershipPercent with _ | p <;>
    simp only [] <;> split_ifs <;> norm_num

/-- The overall convergence score as a function of the three normalized
category scores and the convergence bonus alone (the ≥2-active-category
uplift is equivalent to a positive-bonus test). -/
def overallScoreFromParts (i c t b : ℚ) : ℚ :=
  min 100 ((i * 0.35 + c * 0.3 + t * 0.25 + b) * (if 0 < b then 1.2 else 1))

/-- Bounds and determinism of one ticker's signal fields. -/
theorem computeTickerSignal_props (now : ℤ) (ticker : String)
    (insider : List InsiderTransaction) (congress : List CongressTransaction)
    (institutional : List InstitutionalHolding) :
    (0 ≤ (computeTickerSignal now ticker insider congress institutional).insiderScore
      ∧ (computeTickerSignal now ticker insider congress institutional).insiderScore ≤ 100)
    ∧ (0 ≤ (computeTickerSignal now ticker insider congress institutional).congressScore
      ∧ (computeTickerSignal now ticker insider congress institutional).congressScore ≤ 100)
    ∧ (0 ≤ (computeTickerSignal now ticker insider congress institutional).institutionalScore
      ∧ (computeTickerSignal now ticker insider congress institutional).institutionalScore ≤ 100)
    ∧ (0 ≤ (computeTickerSignal now ticker insider congress institutional).convergenceScore
      ∧ (computeTickerSignal now ticker insider congress institutional).convergenceScore ≤ 100)
    ∧ (computeTickerSignal now ticker insider congress institutional).convergenceScore
        = overallScoreFromParts
            (computeTickerSignal now ticker insider congress institutional).insiderScore
            (computeTickerSignal now ticker insider congress institutional).congressScore
            (computeTickerSignal now ticker insider congress institutional).institutionalScore
            (computeTickerSignal now ticker insider congress institutional).convergenceBonus := by
  unfold computeTickerSignal
  simp only []
  set insRaw := ((insider.filter (fun t => t.transactionType == "BUY")).map (fun tx =>
    calculateInsiderWeight ⟨tx.insiderTitle, tx.transactionType, tx.shares, tx.pricePerShare⟩)).sum with hins
  set congRaw := ((congress.filter (fun t => t.transactionType == "PURCHASE")).map (fun tx =>
    calculateCongressWeight ⟨tx.memberName, tx.committees, tx.transactionType, tx.amountRange⟩)).sum with hcong
  set instRaw := ((institutional.filter (fun h =>
    h.changeType == some "INCREASE" || h.changeType == some "NEW")).map
      calculateInstitutionalWeight).sum with hinst
  have hins0 : 0 ≤ insRaw := by
    rw [hins]
    apply List.sum_nonneg
    intro x hx
    obtain ⟨tx, _, rfl⟩ := List.mem_map.mp hx
    exact calculateInsiderWeight_nonneg _
  have hcong0 : 0 ≤ congRaw := by
    rw [hcong]
    apply List.sum_nonneg
    intro x hx
    obtain ⟨tx, _, rfl⟩ := List.mem_map.mp hx
    exact calculateCongressWeight_nonneg _
  have hinst0 : 0 ≤ instRaw := by
    rw [hinst]
    apply List.sum_nonneg
    intro x hx
    obtain ⟨h, _, rfl⟩ := List.mem_map.mp hx
    exact calculateInstitutionalWeight_nonneg _
  set ac := (([decide (0 < (insider.filter (fun t => t.transactionType == "BUY")).length),
      decide (0 < (congress.filter (fun t => t.transactionType == "PURCHASE")).length),
      decide (0 < (institutional.filter (fun h =>
        h.changeType == some "INCREASE" || h.changeType == some "NEW")).length)] :
      List Bool).filter id).length with hac
  have hbonus0 : (0 : ℚ) ≤ (if 3 ≤ ac then (30 : ℚ) else if 2 ≤ ac then 15 else 0) := by
    split_ifs <;> norm_num
  have hnormBounds : ∀ s : ℚ, 0 ≤ s → 0 ≤ min 100 (s * 2) ∧ min 100 (s * 2) ≤ 100 := by
    intro s hs
    constructor
    · apply le_min (by norm_num)
      positivity
    · exact min_le_left _ _
  have hI := hnormBounds insRaw hins0
  have hC := hnormBounds congRaw hcong0
  have hT := hnormBounds instRaw hinst0
  have hfactor : (if 2 ≤ ac then (1.2 : ℚ) else 1)
      = (if 0 < (if 3 ≤ ac then (30 : ℚ) else if 2 ≤ ac then 15 else 0) then (1.2 : ℚ) else 1) := by
    by_cases h3 : 3 ≤ ac
    · have h2 : 2 ≤ ac := by omega
      simp [h3, h2]
    · by_cases h2 : 2 ≤ ac
      · simp [h3, h2]
      · simp [h3, h2]
  refine ⟨hI, hC, hT, ⟨?_, min_le_left _ _⟩, ?_⟩
  · apply le_min (by norm_num)
    have hmul : (0 : ℚ) ≤ (if 2 ≤ ac then (1.2 : ℚ) else 1) := by split_ifs <;> norm_num
    have hsum : (0 : ℚ) ≤ min 100 (insRaw * 2) * 0.35 + min 100 (congRaw * 2) * 0.3 +
        min 100 (instRaw * 2) * 0.25 + (if 3 ≤ ac then (30 : ℚ) else if 2 ≤ ac then 15 else 0) := by
      have := hI.1; have := hC.1; have := hT.1
      positivity
    positivity
  · unfold overallScoreFromParts
    rw [hfactor]

/-- **C4.** Every emitted `ConvergenceSignal` has all three normalized
category scores and the overall score in `[0, 100]`, and the overall
score is the deterministic function `overallScoreFromParts` of the
three category scores and the convergence bonus. -/
theorem C4_scores_bounded (now : ℤ) (input : ConvergenceInput) (s : ConvergenceSignal)
    (hs : s ∈ detectConvergence now input) :
    (0 ≤ s.insiderScore ∧ s.insiderScore ≤ 100)
    ∧ (0 ≤ s.congressScore ∧ s.congressScore ≤ 100)
    ∧ (0 ≤ s.institutionalScore ∧ s.institutionalScore ≤ 100)
    ∧ (0 ≤ s.convergenceScore ∧ s.convergenceScore ≤ 100)
    ∧ s.convergenceScore = overallScoreFromParts s.insiderScore s.congressScore
        s.institutionalScore s.convergenceBonus := by
  simp only [detectConvergence] at hs
  have hs2 := (List.perm_insertionSort
    (fun a b : ConvergenceSignal => b.convergenceScore ≤ a.convergenceScore) _).subset hs
  have hs3 := List.mem_of_mem_filter hs2
  obtain ⟨t, _, rfl⟩ := List.mem_map.mp hs3
  exact computeTickerSignal_props now t _ _ _

/-- Insider event driving the C4 witness. -/
def C4tx : InsiderTransaction :=
  { ticker := "NVDA", insiderName := "A Smith", insiderTitle := "CEO",
    transactionType := "BUY", shares := 10000, pricePerShare := 200,
    transactionDate := 5 }

/-- Input collection of the C4 witness. -/
def C4input : ConvergenceInput :=
  { insiderTransactions := [C4tx], congressTransactions := [],
    institutionalHoldings := [] }

/-- The signal the detector emits for the C4 witness input. -/
def C4sig : ConvergenceSignal := computeTickerSignal 0 "NVDA" [C4tx] [] []

theorem C4_scores_bounded_witness :
    C4sig ∈ detectConvergence 0 C4input
    ∧ ((0 ≤ C4sig.insiderScore ∧ C4sig.insiderScore ≤ 100)
      ∧ (0 ≤ C4sig.congressScore ∧ C4sig.congressScore ≤ 100)
      ∧ (0 ≤ C4sig.institutionalScore ∧ C4sig.institutionalScore ≤ 100)
      ∧ (0 ≤ C4sig.convergenceScore ∧ C4sig.convergenceScore ≤ 100)
      ∧ C4sig.convergenceScore = overallScoreFromParts C4sig.insiderScore C4sig.congressScore
          C4sig.institutionalScore C4sig.convergenceBonus) := by
  have hweight : calculateInsiderWeight ⟨"CEO", "BUY", 10000, 200⟩ = 45 := by
    norm_num [calculateInsiderWeight, insiderBaseWeight_CEO, insiderTxMultiplier,
      insiderSizeMultiplier, TRANSACTION_SIZE_MULTIPLIERS]
  have hscore : C4sig.convergenceScore = 31.5 := by
    norm_num [C4sig, computeTickerSignal, C4tx, hweight]
  have hscore2 : (computeTickerSignal 0 "NVDA" [C4tx] [] []).convergenceScore = 31.5 := hscore
  have hmem : C4sig ∈ detectConvergence 0 C4input := by
    simp only [detectConvergence, C4input]
    have hfil : ([C4tx].filter (fun tx => tx.ticker == "NVDA")) = [C4tx] := by
      simp [C4tx]
    have htick : C4tx.ticker = "NVDA" := rfl
    norm_num [dedupFirst, htick, hfil, hscore2, List.insertionSort, List.orderedInsert]
    rfl
  exact ⟨hmem, C4_scores_bounded 0 C4input C4sig hmem⟩

/-- Total cost basis (`shares × entry price`) of the open positions. -/
def posBasis (positions : List (String × Position)) : ℚ :=
  (positions.map (fun e => (e.2.shares : ℚ) * e.2.entryPrice)).sum

/-- Cash plus open-position cost basis of a simulator state. -/
def capitalPlusBasis (st : SimState) : ℚ := st.capital + posBasis st.positions

/-- Realized profit and loss of the recorded trades. -/
def realizedDollars (trades : List BacktestTrade) : ℚ :=
  (trades.map (fun t => t.returnDollars)).sum

/-- Well-formed open positions: positive entry price and share count. -/
def GoodPositions (l : List (String × Position)) : Prop :=
  ∀ e ∈ l, 0 < e.2.entryPrice ∧ 0 < e.2.shares

theorem posBasis_nil : posBasis [] = 0 := rfl

theorem posBasis_cons (e : String × Position) (l : List (String × Position)) :
    posBasis (e :: l) = (e.2.shares : ℚ) * e.2.entryPrice + posBasis l := by
  simp [posBasis]

theorem posBasis_append (l1 l2 : List (String × Position)) :
    posBasis (l1 ++ l2) = posBasis l1 + posBasis l2 := by
  simp [posBasis]

theorem realizedDollars_append (t1 t2 : List BacktestTrade) :
    realizedDollars (t1 ++ t2) = realizedDollars t1 + realizedDollars t2 := by
  simp [realizedDollars]

theorem mem_of_getLast?_eq_some {α : Type} {l : List α} {a : α}
    (h : l.getLast? = some a) : a ∈ l := by
  induction l with
  | nil => simp at h
  | cons hd tl ih =>
    rcases tl with _ | ⟨hd2, tl2⟩
    · simp_all
    · rw [List.getLast?_cons_cons] at h
      exact List.mem_cons_of_mem hd (ih h)

/-- The price returned for a date is one of the bars consulted. -/
theorem getPriceOnDate_mem {prices : List HistoricalPrice} {d : ℤ} {p : HistoricalPrice}
    (h : getPriceOnDate prices d = some p) : p ∈ prices := by
  unfold getPriceOnDate at h
  rcases hf : prices.find? (fun q => decide (d ≤ q.date)) with _ | q
  · rw [hf] at h
    exact mem_of_getLast?_eq_some h
  · rw [hf] at h
    cases h
    exact List.mem_of_find?_eq_some hf

/-- Members of the table after a `Map.set` are the new binding or an
old one. -/
theorem mem_assocSet {l : List (String × Position)} {k : String} {v : Position} :
    ∀ x ∈ assocSet l k v, x = (k, v) ∨ x ∈ l := by
  induction l with
  | nil => intro x hx; simp [assocSet] at hx; exact Or.inl hx
  | cons e t ih =>
    intro x hx
    by_cases hk : e.1 = k
    · simp only [assocSet, if_pos hk] at hx
      rcases List.mem_cons.mp hx with h1 | h1
      · exact Or.inl h1
      · exact Or.inr (List.mem_cons_of_mem e h1)
    · simp only [assocSet, if_neg hk] at hx
      rcases List.mem_cons.mp hx with h1 | h1
      · exact Or.inr (by simp [h1])
      · rcases ih x h1 with h2 | h2
        · exact Or.inl h2
        · exact Or.inr (List.mem_cons_of_mem e h2)

/-- `Map.set` adds at most the new binding's basis (replacement drops
the old binding's nonnegative basis). -/
theorem posBasis_assocSet {l : List (String × Position)} {k : String} {v : Position}
    (h : ∀ e ∈ l, 0 ≤ (e.2.shares : ℚ) * e.2.entryPrice) :
    posBasis (assocSet l k v) ≤ posBasis l + (v.shares : ℚ) * v.entryPrice := by
  induction l with
  | nil => simp [assocSet, posBasis]
  | cons e t ih =>
    by_cases hk : e.1 = k
    · simp only [assocSet, if_pos hk]
      rw [posBasis_cons, posBasis_cons]
      have he := h e (List.mem_cons_self e t)
      linarith
    · simp only [assocSet, if_neg hk]
      rw [posBasis_cons, posBasis_cons]
      have ht := ih (fun x hx => h x (List.mem_cons_of_mem e hx))
      linarith

/-- Opening a position moves exactly the new basis from cash into the
position table, and replacement of an existing binding can only drop a
nonnegative basis. -/
theorem open_measure_le (c r : ℚ) (l : List (String × Position)) (k : String) (v : Position)
    (h : ∀ e ∈ l, 0 ≤ (e.2.shares : ℚ) * e.2.entryPrice) :
    c - (v.shares : ℚ) * v.entryPrice + posBasis (assocSet l k v) - r
      ≤ c + posBasis l - r := by
  have hb := posBasis_assocSet (k := k) (v := v) h
  linarith

set_option maxHeartbeats 1000000 in
/-- One entry attempt preserves well-formedness, never increases
`cash + basis − realized`, and records no trade. -/
theorem openOne_step (cfg : BacktestConfig) (series : PriceSeries) (cur : ℤ)
    (st : SimState) (sig : ConvergenceSignal)
    (hpr : ∀ t, ∀ p ∈ series t, 0 < p.close)
    (hg : GoodPositions st.positions) :
    GoodPositions (openOne cfg series cur st sig).positions
    ∧ capitalPlusBasis (openOne cfg series cur st sig)
        - realizedDollars (openOne cfg series cur st sig).trades
      ≤ capitalPlusBasis st - realizedDollars st.trades
    ∧ (openOne cfg series cur st sig).trades = st.trades := by
  have hbase : ∀ e ∈ st.positions, 0 ≤ (e.2.shares : ℚ) * e.2.entryPrice := by
    intro e he
    have h2 := hg e he
    have h1 : (0 : ℚ) ≤ (e.2.shares : ℚ) := by exact_mod_cast le_of_lt h2.2
    exact mul_nonneg h1 (le_of_lt h2.1)
  rcases h : getPriceOnDate
      (loadHistoricalPrices series sig.ticker cur (cfg.endDate + cfg.holdingPeriodDays)) cur
    with _ | p
  · simp only [openOne, h]
    exact ⟨hg, le_refl _, trivial⟩
  · have hclose : 0 < p.close := by
      have hmem := getPriceOnDate_mem h
      unfold loadHistoricalPrices at hmem
      exact hpr sig.ticker p (List.mem_of_mem_filter hmem)
    simp only [openOne, h]
    split_ifs with hcap hsh
    · refine ⟨?_, ?_, rfl⟩
      · intro x hx
        rcases mem_assocSet x hx with rfl | hx2
        · exact ⟨hclose, hsh⟩
        · exact hg x hx2
      · simp only [capitalPlusBasis]
        exact open_measure_le _ _ _ _ ⟨sig, cur, p.close, _⟩ hbase
    · exact ⟨hg, le_refl _, rfl⟩
    · exact ⟨hg, le_refl _, rfl⟩

/-- The whole entry loop preserves well-formedness and never increases
`cash + basis − realized`; it records no trade. -/
theorem openFold_step (cfg : BacktestConfig) (series : PriceSeries) (cur : ℤ)
    (sigs : List ConvergenceSignal)
    (hpr : ∀ t, ∀ p ∈ series t, 0 < p.close) :
    ∀ st : SimState, GoodPositions st.positions →
    GoodPositions (sigs.foldl (openOne cfg series cur) st).positions
    ∧ capitalPlusBasis (sigs.foldl (openOne cfg series cur) st)
        - realizedDollars (sigs.foldl (openOne cfg series cur) st).trades
      ≤ capitalPlusBasis st - realizedDollars st.trades
    ∧ (sigs.foldl (openOne cfg series cur) st).trades = st.trades := by
  induction sigs with
  | nil => intro st hg; exact ⟨hg, le_refl _, rfl⟩
  | cons s tl ih =>
    intro st hg
    have h1 := openOne_step cfg series cur st s hpr hg
    have h2 := ih (openOne cfg series cur st s) h1.1
    rw [List.foldl_cons]
    exact ⟨h2.1, le_trans h2.2.1 h1.2.1, h2.2.2.trans h1.2.2⟩

/-- One exit evaluation either keeps the position or closes it with a
single trade whose `returnDollars` is `shares × (exit − entry)`. -/
theorem exitOne_cases (cfg : BacktestConfig) (series : PriceSeries) (cur : ℤ)
    (acc : ℚ × List (String × Position) × List BacktestTrade) (e : String × Position) :
    exitOne cfg series cur acc e = (acc.1, acc.2.1 ++ [e], acc.2.2)
    ∨ ∃ p : HistoricalPrice, ∃ reason : ExitReason,
        exitOne cfg series cur acc e
          = (acc.1 + (e.2.shares : ℚ) * p.close, acc.2.1,
             acc.2.2 ++
               [({ ticker := e.1, entryDate := cur,
                   entryPrice := e.2.entryPrice, exitDate := cur, exitPrice := p.close,
                   shares := e.2.shares,
                   positionValue := (e.2.shares : ℚ) * e.2.entryPrice,
                   returnPercent := (p.close - e.2.entryPrice) / e.2.entryPrice * 100,
                   returnDollars := (e.2.shares : ℚ) * (p.close - e.2.entryPrice),
                   convergenceScoreAtEntry := e.2.signal.convergenceScore,
                   holdingDays := cur - cur,
                   exitReason := reason } : BacktestTrade)]) := by
  rcases hp : getPriceOnDate (loadHistoricalPrices series e.1 cur cur) cur with _ | p
  · left
    simp [exitOne, hp]
  · simp only [exitOne, hp]
    split_ifs with hd
    · right
      exact ⟨p, _, rfl⟩
    · left
      rfl

/-- The exit loop preserves `cash + basis − realized` exactly, and only
keeps positions that were already open. -/
theorem exitFold_eq (cfg : BacktestConfig) (series : PriceSeries) (cur : ℤ) :
    ∀ (l : List (String × Position)) (cap : ℚ) (kept : List (String × Position))
      (trades : List BacktestTrade),
    ((l.foldl (exitOne cfg series cur) (cap, kept, trades)).1
        + posBasis (l.foldl (exitOne cfg series cur) (cap, kept, trades)).2.1
        - realizedDollars (l.foldl (exitOne cfg series cur) (cap, kept, trades)).2.2
      = cap + posBasis kept + posBasis l - realizedDollars trades)
    ∧ ∀ x ∈ (l.foldl (exitOne cfg series cur) (cap, kept, trades)).2.1,
        x ∈ kept ∨ x ∈ l := by
  intro l
  induction l with
  | nil =>
    intro cap kept trades
    constructor
    · simp [posBasis_nil]
    · intro x hx
      exact Or.inl hx
  | cons e tl ih =>
    intro cap kept trades
    rcases exitOne_cases cfg series cur (cap, kept, trades) e with heq | ⟨p, reason, heq⟩
    · rw [List.foldl_cons, heq]
      obtain ⟨h1, h2⟩ := ih cap (kept ++ [e]) trades
      constructor
      · rw [h1, posBasis_append, posBasis_cons, posBasis_cons, posBasis_nil]
        ring
      · intro x hx
        rcases h2 x hx with hx1 | hx1
        · rcases List.mem_append.mp hx1 with hx2 | hx2
          · exact Or.inl hx2
          · simp at hx2
            exact Or.inr (by simp [hx2])
        · exact Or.inr (List.mem_cons_of_mem e hx1)
    · rw [List.foldl_cons, heq]
      obtain ⟨h1, h2⟩ := ih (cap + (e.2.shares : ℚ) * p.close) kept
        (trades ++
          [({ ticker := e.1, entryDate := cur,
              entryPrice := e.2.entryPrice, exitDate := cur, exitPrice := p.close,
              shares := e.2.shares,
              positionValue := (e.2.shares : ℚ) * e.2.entryPrice,
              returnPercent := (p.close - e.2.entryPrice) / e.2.entryPrice * 100,
              returnDollars := (e.2.shares : ℚ) * (p.close - e.2.entryPrice),
              convergenceScoreAtEntry := e.2.signal.convergenceScore,
              holdingDays := cur - cur,
              exitReason := reason } : BacktestTrade)])
      constructor
      · rw [h1, realizedDollars_append, posBasis_cons]
        simp [realizedDollars]
        ring
      · intro x hx
        rcases h2 x hx with hx1 | hx1
        · exact Or.inl hx1
        · exact Or.inr (List.mem_cons_of_mem e hx1)

/-- One simulated day preserves well-formedness and never increases
`cash + basis − realized` (entries conserve it up to replacement,
exits conserve it exactly, drawdown tracking does not touch it). -/
theorem simDay_step (cfg : BacktestConfig) (series : PriceSeries)
    (qualified : List ConvergenceSignal) (st : SimState) (cur : ℤ)
    (hpr : ∀ t, ∀ p ∈ series t, 0 < p.close)
    (hg : GoodPositions st.positions) :
    GoodPositions (simDay cfg series qualified st cur).positions
    ∧ capitalPlusBasis (simDay cfg series qualified st cur)
        - realizedDollars (simDay cfg series qualified st cur).trades
      ≤ capitalPlusBasis st - realizedDollars st.trades := by
  unfold simDay
  simp only []
  set ds := qualified.filter (fun s =>
    decide (s.date = cur) && !(st.positions.any (fun e => e.1 == s.ticker))) with hds
  set toOpen := jsSliceTo ds (cfg.maxPositions - (st.positions.length : ℤ)) with hto
  set st1 := toOpen.foldl (openOne cfg series cur) st with hst1
  set ex := st1.positions.foldl (exitOne cfg series cur) (st1.capital, [], st1.trades) with hex
  have hopen := openFold_step cfg series cur toOpen hpr st hg
  rw [← hst1] at hopen
  have hexit := exitFold_eq cfg series cur st1.positions st1.capital [] st1.trades
  rw [← hex] at hexit
  have hgood : GoodPositions ex.2.1 := by
    intro x hx
    rcases hexit.2 x hx with h0 | h0
    · simp at h0
    · exact hopen.1 x h0
  have hmeas : ex.1 + posBasis ex.2.1 - realizedDollars ex.2.2
      ≤ capitalPlusBasis st - realizedDollars st.trades := by
    rw [hexit.1, posBasis_nil]
    have h2 := hopen.2.1
    simp only [capitalPlusBasis] at h2 ⊢
    linarith
  split_ifs with hdd
  · exact ⟨hgood, by simpa [capitalPlusBasis] using hmeas⟩
  · exact ⟨hgood, by simpa [capitalPlusBasis] using hmeas⟩

/-- The whole run preserves well-formedness and never increases
`cash + basis − realized`. -/
theorem simRun_invariant (cfg : BacktestConfig) (series : PriceSeries)
    (qualified : List ConvergenceSignal)
    (hpr : ∀ t, ∀ p ∈ series t, 0 < p.close) :
    ∀ (days : List ℤ) (st : SimState), GoodPositions st.positions →
      GoodPositions (simRun cfg series qualified st days).positions
      ∧ capitalPlusBasis (simRun cfg series qualified st days)
          - realizedDollars (simRun cfg series qualified st days).trades
        ≤ capitalPlusBasis st - realizedDollars st.trades := by
  intro days
  induction days with
  | nil => intro st hg; exact ⟨hg, le_refl _⟩
  | cons d tl ih =>
    intro st hg
    have h1 := simDay_step cfg series qualified st d hpr hg
    have h2 := ih (simDay cfg series qualified st d) h1.1
    exact ⟨h2.1, le_trans h2.2 h1.2⟩

/-- **C3 (amended).** On every simulated day,
`cash + open-position cost basis ≤ initial capital + realized profit
and loss of the recorded trades` (for positive price data); capital is
conserved up to realized gains, not bounded by the initial capital. -/
theorem C3_capital_conservation_amended (cfg : BacktestConfig) (series : PriceSeries)
    (qualified : List ConvergenceSignal)
    (hpr : ∀ t, ∀ p ∈ series t, 0 < p.close) (days : List ℤ) :
    capitalPlusBasis (simRun cfg series qualified (initState cfg) days)
      ≤ cfg.initialCapital
        + realizedDollars (simRun cfg series qualified (initState cfg) days).trades := by
  have hg : GoodPositions (initState cfg).positions := by
    intro e he
    simp [initState] at he
  have h := (simRun_invariant cfg series qualified hpr days (initState cfg) hg).2
  have hinit : capitalPlusBasis (initState cfg) - realizedDollars (initState cfg).trades
      = cfg.initialCapital := by
    simp [initState, capitalPlusBasis, posBasis, realizedDollars]
  linarith

/-- Config for the C3 run: one position, 1-day holding period. -/
def C3cfg : BacktestConfig :=
  { startDate := 0, endDate := 2, initialCapital := 1000,
    minConvergenceScore := 0, maxPositions := 1, holdingPeriodDays := 1 }

/-- Entry signal for the C3 run. -/
def C3sig : ConvergenceSignal := { ticker := "A", date := 0, convergenceScore := 50 }

/-- Price path for the C3 run: buy at 100, price doubles to 200. -/
def C3series : PriceSeries := fun _ => [⟨0, 100⟩, ⟨1, 200⟩, ⟨2, 200⟩]

set_option maxHeartbeats 1000000 in
/-- **C3 (counterexample).** The position bought at 100 on day 0 is
force-closed at 200 by the end-of-test exit on day 2 (the holding
period never fires because `daysSinceEntry` is pinned at 0 by the
`entryDate`/`currentDate` aliasing), leaving cash 2000 > 1000 =
initial capital on that simulated day, so
`cash + open-position cost basis ≤ initial capital` fails. -/
theorem C3_capital_conservation_counterexample :
    dayRange C3cfg.startDate C3cfg.endDate = [0, 1, 2]
    ∧ capitalPlusBasis (simRun C3cfg C3series [C3sig] (initState C3cfg) [0, 1, 2]) = 2000
    ∧ C3cfg.initialCapital = 1000
    ∧ ¬ (capitalPlusBasis (simRun C3cfg C3series [C3sig] (initState C3cfg) [0, 1, 2])
          ≤ C3cfg.initialCapital) := by
  have heval : capitalPlusBasis (simRun C3cfg C3series [C3sig] (initState C3cfg) [0, 1, 2])
      = 2000 := by
    norm_num [capitalPlusBasis, posBasis, simRun, C3cfg, C3sig, C3series, simDay,
      initState, jsSliceTo, openOne, assocSet, exitOne, optTruthy, evalExitReason,
      loadHistoricalPrices, getPriceOnDate]
  refine ⟨by decide, heval, rfl, ?_⟩
  rw [heval]
  norm_num [C3cfg]

theorem C3_capital_conservation_amended_witness :
    (∀ t, ∀ p ∈ C3series t, 0 < p.close)
    ∧ capitalPlusBasis (simRun C3cfg C3series [C3sig] (initState C3cfg) [0, 1, 2])
        ≤ C3cfg.initialCapital
          + realizedDollars (simRun C3cfg C3series [C3sig] (initState C3cfg) [0, 1, 2]).trades := by
  have hp : ∀ t, ∀ p ∈ C3series t, 0 < p.close := by
    intro t p hp
    simp [C3series] at hp
    rcases hp with h | h | h <;> rw [h] <;> norm_num
  exact ⟨hp, C3_capital_conservation_amended C3cfg C3series [C3sig] hp [0, 1, 2]⟩

/-- **C7 (amended).** All score-bearing fields of a ticker's signal —
the three category scores, activity counts, convergence bonus and
overall score — are independent of the arrival order of the three event
collections; the recent-buyers list is not (see the counterexample): it
takes the first up-to-5 insider (3 legislator, 3 institutional) bullish
events in arrival order before sorting, rather than the most recent. -/
theorem C7_order_independence_amended (now : ℤ) (tk : String)
    (ins1 ins2 : List InsiderTransaction) (cong1 cong2 : List CongressTransaction)
    (inst1 inst2 : List InstitutionalHolding)
    (hi : ins1.Perm ins2) (hc : cong1.Perm cong2) (ht : inst1.Perm inst2) :
    (computeTickerSignal now tk ins1 cong1 inst1).insiderScore
        = (computeTickerSignal now tk ins2 cong2 inst2).insiderScore
    ∧ (computeTickerSignal now tk ins1 cong1 inst1).congressScore
        = (computeTickerSignal now tk ins2 cong2 inst2).congressScore
    ∧ (computeTickerSignal now tk ins1 cong1 inst1).institutionalScore
        = (computeTickerSignal now tk ins2 cong2 inst2).institutionalScore
    ∧ (computeTickerSignal now tk ins1 cong1 inst1).convergenceBonus
        = (computeTickerSignal now tk ins2 cong2 inst2).convergenceBonus
    ∧ (computeTickerSignal now tk ins1 cong1 inst1).convergenceScore
        = (computeTickerSignal now tk ins2 cong2 inst2).convergenceScore
    ∧ (computeTickerSignal now tk ins1 cong1 inst1).signals
        = (computeTickerSignal now tk ins2 cong2 inst2).signals := by
  have hif := hi.filter (fun t => t.transactionType == "BUY")
  have hcf := hc.filter (fun t => t.transactionType == "PURCHASE")
  have htf := ht.filter (fun h => h.changeType == some "INCREASE" || h.changeType == some "NEW")
  have hsum1 := (hif.map (fun tx => calculateInsiderWeight
    ⟨tx.insiderTitle, tx.transactionType, tx.shares, tx.pricePerShare⟩)).sum_eq
  have hsum2 := (hcf.map (fun tx => calculateCongressWeight
    ⟨tx.memberName, tx.committees, tx.transactionType, tx.amountRange⟩)).sum_eq
  have hsum3 := (htf.map calculateInstitutionalWeight).sum_eq
  have hlen1 := hif.length_eq
  have hlen2 := hcf.length_eq
  have hlen3 := htf.length_eq
  refine ⟨?_, ?_, ?_, ?_, ?_, ?_⟩ <;>
    simp only [computeTickerSignal, hsum1, hsum2, hsum3, hlen1, hlen2, hlen3]

/-- Insider buy used by the C7 inputs. -/
def C7mk (nm : String) (d : ℤ) : InsiderTransaction :=
  { ticker := "A", insiderName := nm, insiderTitle := "CEO",
    transactionType := "BUY", shares := 100, pricePerShare := 1000,
    transactionDate := d }

/-- Six insider buys on one ticker, oldest first. -/
def C7ins : List InsiderTransaction :=
  [C7mk "I1" 1, C7mk "I2" 2, C7mk "I3" 3, C7mk "I4" 4, C7mk "I5" 5, C7mk "I6" 6]

/-- Detector input with the six buys in arrival order. -/
def C7inA : ConvergenceInput :=
  { insiderTransactions := C7ins, congressTransactions := [], institutionalHoldings := [] }

/-- The same collection delivered in reversed arrival order. -/
def C7inB : ConvergenceInput :=
  { insiderTransactions := C7ins.reverse, congressTransactions := [],
    institutionalHoldings := [] }

/-- The signal emitted for the in-order input. -/
def C7sigA : ConvergenceSignal := computeTickerSignal 0 "A" C7ins [] []

/-- The signal emitted for the reversed input. -/
def C7sigB : ConvergenceSignal := computeTickerSignal 0 "A" C7ins.reverse [] []

theorem C7weight : calculateInsiderWeight ⟨"CEO", "BUY", 100, 1000⟩ = 22.5 := by
  norm_num [calculateInsiderWeight, insiderBaseWeight_CEO, insiderTxMultiplier,
    insiderSizeMultiplier, TRANSACTION_SIZE_MULTIPLIERS]

theorem C7scoreA : C7sigA.convergenceScore = 35 := by
  norm_num [C7sigA, computeTickerSignal, C7ins, C7mk, C7weight]

theorem C7revEval : C7ins.reverse
    = [C7mk "I6" 6, C7mk "I5" 5, C7mk "I4" 4, C7mk "I3" 3, C7mk "I2" 2, C7mk "I1" 1] := by
  simp [C7ins]

theorem C7scoreB : C7sigB.convergenceScore = 35 := by
  norm_num [C7sigB, C7revEval, computeTickerSignal, C7mk, C7weight]

set_option maxHeartbeats 1000000 in
theorem C7namesA : C7sigA.recentBuyers.map (fun b => b.name)
    = ["I5", "I4", "I3", "I2", "I1"] := by
  norm_num +decide [C7sigA, computeTickerSignal, C7ins, C7mk, getInsiderType,
    strIncludes, jsUpper, subIn, prefixAt, List.insertionSort, List.orderedInsert]

set_option maxHeartbeats 1000000 in
theorem C7namesB : C7sigB.recentBuyers.map (fun b => b.name)
    = ["I6", "I5", "I4", "I3", "I2"] := by
  norm_num +decide [C7sigB, C7revEval, computeTickerSignal, C7mk, getInsiderType,
    strIncludes, jsUpper, subIn, prefixAt, List.insertionSort, List.orderedInsert]

theorem C7detectA : detectConvergence 0 C7inA = [C7sigA] := by
  have hscore2 : (computeTickerSignal 0 "A" C7ins [] []).convergenceScore = 35 := C7scoreA
  simp only [detectConvergence, C7inA]
  have hfil : (C7ins.filter (fun tx => tx.ticker == "A")) = C7ins := by
    simp [C7ins, C7mk]
  have htick : C7ins.map (fun t => t.ticker) = ["A", "A", "A", "A", "A", "A"] := by
    simp [C7ins, C7mk]
  norm_num [dedupFirst, htick, hfil, hscore2, List.insertionSort, List.orderedInsert]
  rfl

theorem C7detectB : detectConvergence 0 C7inB = [C7sigB] := by
  have hscore2 : (computeTickerSignal 0 "A" C7ins.reverse [] []).convergenceScore = 35 :=
    C7scoreB
  simp only [detectConvergence, C7inB]
  have hfil0 : (C7ins.filter (fun tx => tx.ticker == "A")) = C7ins := by
    simp [C7ins, C7mk]
  have htick : C7ins.reverse.map (fun t => t.ticker) = ["A", "A", "A", "A", "A", "A"] := by
    simp [C7ins, C7mk]
  norm_num [dedupFirst, htick, hfil0, hscore2, List.insertionSort, List.orderedInsert]
  rfl

/-- **C7 (counterexample).** Reversing the arrival order of the six
insider buys changes the emitted signal's recent-buyers list (the first
five events in arrival order are taken, not the most recent five), so
the detector's output is not arrival-order independent — and the
in-order run's list omits the most recent buyer `I6` entirely. -/
theorem C7_order_dependence_counterexample :
    C7inB.insiderTransactions = C7inA.insiderTransactions.reverse
    ∧ (detectConvergence 0 C7inA).map (fun s => s.recentBuyers.map (fun b => b.name))
        = [["I5", "I4", "I3", "I2", "I1"]]
    ∧ (detectConvergence 0 C7inB).map (fun s => s.recentBuyers.map (fun b => b.name))
        = [["I6", "I5", "I4", "I3", "I2"]]
    ∧ ¬ (∀ s, s ∈ detectConvergence 0 C7inA ↔ s ∈ detectConvergence 0 C7inB) := by
  refine ⟨rfl, ?_, ?_, ?_⟩
  · rw [C7detectA]
    simp [C7namesA]
  · rw [C7detectB]
    simp [C7namesB]
  · intro h
    have hm := (h C7sigA).mp (by rw [C7detectA]; exact List.mem_singleton_self _)
    rw [C7detectB] at hm
    have heq : C7sigA = C7sigB := by simpa using hm
    have hnames := congrArg (fun s => s.recentBuyers.map (fun b => b.name)) heq
    simp only [C7namesA, C7namesB] at hnames
    simp at hnames

theorem C7_order_independence_amended_witness :
    ([C7mk "I1" 1, C7mk "I2" 2].Perm [C7mk "I2" 2, C7mk "I1" 1])
    ∧ ((computeTickerSignal 0 "A" [C7mk "I1" 1, C7mk "I2" 2] [] []).insiderScore
        = (computeTickerSignal 0 "A" [C7mk "I2" 2, C7mk "I1" 1] [] []).insiderScore
      ∧ (computeTickerSignal 0 "A" [C7mk "I1" 1, C7mk "I2" 2] [] []).congressScore
        = (computeTickerSignal 0 "A" [C7mk "I2" 2, C7mk "I1" 1] [] []).congressScore
      ∧ (computeTickerSignal 0 "A" [C7mk "I1" 1, C7mk "I2" 2] [] []).institutionalScore
        = (computeTickerSignal 0 "A" [C7mk "I2" 2, C7mk "I1" 1] [] []).institutionalScore
      ∧ (computeTickerSignal 0 "A" [C7mk "I1" 1, C7mk "I2" 2] [] []).convergenceBonus
        = (computeTickerSignal 0 "A" [C7mk "I2" 2, C7mk "I1" 1] [] []).convergenceBonus
      ∧ (computeTickerSignal 0 "A" [C7mk "I1" 1, C7mk "I2" 2] [] []).convergenceScore
        = (computeTickerSignal 0 "A" [C7mk "I2" 2, C7mk "I1" 1] [] []).convergenceScore
      ∧ (computeTickerSignal 0 "A" [C7mk "I1" 1, C7mk "I2" 2] [] []).signals
        = (computeTickerSignal 0 "A" [C7mk "I2" 2, C7mk "I1" 1] [] []).signals) :=
  have hperm : ([C7mk "I1" 1, C7mk "I2" 2].Perm [C7mk "I2" 2, C7mk "I1" 1]) :=
    List.Perm.swap (C7mk "I2" 2) (C7mk "I1" 1) []
  ⟨hperm, C7_order_independence_amended 0 "A" _ _ [] [] [] [] hperm
    (List.Perm.refl []) (List.Perm.refl [])⟩
